import Mathlib

/-!
Verification development for the cdm-data validation pipeline.

The JavaScript sources embedded here:
* `.gitea/scripts/validate-cdm-schema.js`    - contact schema validator (Joi schema + CDM rules)
* `.gitea/scripts/validate-business-rules.js` - business-rules validator with duplicate-email cache
* `.gitea/scripts/validate-metadata.js`      - submission-metadata validator
* the report generator (aggregator) reading the three log files

Modelling conventions:
* JSON values are a `Json` inductive; numbers are modelled as `Int`
  (no claim in this development depends on non-integral numbers).
* JavaScript strings are modelled as Lean `String`; `toLowerCase` is modelled
  on the ASCII range (`Char.toLower`), which covers every string occurring in
  the claims.
* The filesystem is a finite tree `FSTree`; paths are segment lists.
* String operations are implemented over `String.data` character lists so
  that every definition evaluates inside the kernel.
-/

namespace CdmData

/-- Character-list based `endsWith`, mirroring JavaScript `String.prototype.endsWith`. -/
def strEndsWith (s p : String) : Bool := p.data.isSuffixOf s.data

/-- Character-list based substring test, mirroring JavaScript `String.prototype.includes`. -/
def strContainsSub (s p : String) : Bool := s.data.tails.any (fun t => p.data.isPrefixOf t)

/-- ASCII model of JavaScript `String.prototype.toLowerCase`. -/
def lowerStr (s : String) : String := ⟨s.data.map Char.toLower⟩

/-! ## Validator log output (shared by all three validator `main` functions)

Each validator's `main` builds its log the same way
(`validate-cdm-schema.js` lines 192-204 and the corresponding blocks of the
other two scripts): title line, underline, three count lines, an optional
`Details:` section with one line per invalid file, then
`'\nAll validation checks passed!\n'` or `'\nvalidation failed!\n'`.
For a run that discovers zero files, `main` instead writes a fixed
"no files found" message and exits 0.
-/

/-- The success phrase of the validator log contract. -/
def successPhrase : String := "All validation checks passed!"

/-- The failure phrase of the validator log contract. -/
def failPhrase : String := "validation failed!"

/-- Tail appended to the log when every file was valid: `'\nAll validation checks passed!\n'`. -/
def successTail : String := "\nAll validation checks passed!\n"

/-- Tail appended to the log when some file was invalid: `'\nvalidation failed!\n'`. -/
def failTail : String := "\nvalidation failed!\n"

/-- Log written by `validate-cdm-schema.js` / `validate-business-rules.js` when no files are found. -/
def noContactFilesMsg : String := "No contact data files found to validate\n"

/-- Log written by `validate-metadata.js` when no files are found. -/
def noMetadataFilesMsg : String := "No metadata files found to validate\n"

/-- Per-file outcome of a validator run: the file path and the `validateFile` result. -/
structure FileResult where
  path : String
  valid : Bool
deriving DecidableEq

/-- The log text a validator `main` writes for a non-empty file list,
parameterised by its title, underline and per-file error prefix. -/
def mkValidatorLog (title underline errPrefix : String) (results : List FileResult) : String :=
  let total := results.length
  let validCount := (results.filter (fun r => r.valid)).length
  let invalidCount := total - validCount
  let errorLines := (results.filter (fun r => !r.valid)).map (fun r => errPrefix ++ r.path)
  let base := title ++ "\n" ++ underline ++ "\n" ++
    s!"Total files: {total}\n" ++ s!"Valid files: {validCount}\n" ++
    s!"Invalid files: {invalidCount}\n"
  let withDetails := if errorLines.isEmpty then base
    else base ++ "\nDetails:\n" ++ String.join (errorLines.map (fun l => l ++ "\n"))
  withDetails ++ (if results.all (fun r => r.valid) then successTail else failTail)

/-- The log `validate-cdm-schema.js` `main` writes (empty case at lines 168-173,
non-empty case at lines 192-204). -/
def cdmSchemaLog (results : List FileResult) : String :=
  if results.isEmpty then noContactFilesMsg
  else mkValidatorLog "CDM Schema Validation Results" "============================"
    "❌ Invalid: " results

/-- The log `validate-business-rules.js` `main` writes (lines 251-258 and 276-290). -/
def businessRulesLog (results : List FileResult) : String :=
  if results.isEmpty then noContactFilesMsg
  else mkValidatorLog "Business Rules Validation Results" "==============================="
    "‚ùå Rule violation: " results

/-- The log `validate-metadata.js` `main` writes (lines 189-196 and 214-228). -/
def metadataValidationLog (results : List FileResult) : String :=
  if results.isEmpty then noMetadataFilesMsg
  else mkValidatorLog "Metadata Validation Results" "=========================="
    "❌ Invalid metadata: " results

/-- `EndsWithPhrase log p`: the log text ends with the phrase `p`
(followed by the final newline the code appends). -/
def EndsWithPhrase (log p : String) : Prop := (p ++ "\n").data <:+ log.data

instance (log p : String) : Decidable (EndsWithPhrase log p) := by
  unfold EndsWithPhrase; infer_instance

theorem endsWith_success_of_successTail (x : String) :
    EndsWithPhrase (x ++ successTail) successPhrase := by
  unfold EndsWithPhrase
  rw [String.data_append]
  exact List.IsSuffix.trans (by decide) (List.suffix_append _ _)

theorem endsWith_fail_of_failTail (x : String) :
    EndsWithPhrase (x ++ failTail) failPhrase := by
  unfold EndsWithPhrase
  rw [String.data_append]
  exact List.IsSuffix.trans (by decide) (List.suffix_append _ _)

theorem not_endsWith_fail_of_successTail (x : String) :
    ¬ EndsWithPhrase (x ++ successTail) failPhrase := by
  unfold EndsWithPhrase
  rw [String.data_append]
  intro h
  have h2 : successTail.data <:+ x.data ++ successTail.data := List.suffix_append _ _
  rcases List.suffix_or_suffix_of_suffix h h2 with h3 | h3
  · exact absurd h3 (by decide)
  · exact absurd h3.length_le (by decide)

theorem not_endsWith_success_of_failTail (x : String) :
    ¬ EndsWithPhrase (x ++ failTail) successPhrase := by
  unfold EndsWithPhrase
  rw [String.data_append]
  intro h
  have h2 : failTail.data <:+ x.data ++ failTail.data := List.suffix_append _ _
  rcases List.suffix_or_suffix_of_suffix h h2 with h3 | h3
  · exact absurd h3 (by decide)
  · exact absurd h3 (by decide)

theorem mkValidatorLog_shape (t u e : String) (rs : List FileResult) :
    ∃ x, mkValidatorLog t u e rs =
      x ++ (if rs.all (fun r => r.valid) then successTail else failTail) :=
  ⟨_, rfl⟩

theorem mkValidatorLog_ends_iff (t u e : String) (rs : List FileResult) :
    (EndsWithPhrase (mkValidatorLog t u e rs) successPhrase ↔ rs.all (fun r => r.valid) = true) ∧
    (EndsWithPhrase (mkValidatorLog t u e rs) failPhrase ↔ rs.all (fun r => r.valid) = false) := by
  obtain ⟨x, hx⟩ := mkValidatorLog_shape t u e rs
  cases hall : rs.all (fun r => r.valid) <;> rw [hall] at hx <;> simp at hx
  · rw [hx]
    exact ⟨⟨fun h => absurd h (not_endsWith_success_of_failTail x), fun h => by simp at h⟩,
      ⟨fun _ => rfl, fun _ => endsWith_fail_of_failTail x⟩⟩
  · rw [hx]
    exact ⟨⟨fun _ => rfl, fun _ => endsWith_success_of_successTail x⟩,
      ⟨fun h => absurd h (not_endsWith_fail_of_successTail x), fun h => by simp at h⟩⟩

/-! ## JSON values

JSON data model for the contact and metadata records. Numbers are modelled as
integers; object fields are an association list (as produced by `JSON.parse`,
where a later duplicate key overwrites an earlier one, whence the reversed
lookup).
-/

/-- A JSON value. -/
inductive Json where
  | null : Json
  | bool (b : Bool) : Json
  | num (n : Int) : Json
  | str (s : String) : Json
  | arr (items : List Json) : Json
  | obj (fields : List (String × Json)) : Json

/-- JavaScript truthiness of a JSON value. -/
def truthy : Json → Bool
  | .null => false
  | .bool b => b
  | .num n => n != 0
  | .str s => s != ""
  | .arr _ => true
  | .obj _ => true

/-- Property access `record[key]`: `none` models the JavaScript `undefined`.
For a duplicate key the last occurrence wins, as with `JSON.parse`. -/
def getField (j : Json) (key : String) : Option Json :=
  match j with
  | .obj fields => fields.reverse.lookup key
  | _ => none

mutual

/-- JavaScript `String(v)` coercion, as applied by template literals and
`RegExp.prototype.test` to non-string arguments. -/
def jsToString : Json → String
  | .null => "null"
  | .bool true => "true"
  | .bool false => "false"
  | .num n => toString n
  | .str s => s
  | .arr items => jsArrToString items
  | .obj _ => "[object Object]"

/-- `String` coercion of an array (`Array.prototype.toString` joins the
elements with `,`, rendering `null` elements as empty). -/
def jsArrToString : List Json → String
  | [] => ""
  | [.null] => ""
  | [j] => jsToString j
  | .null :: rest => "," ++ jsArrToString rest
  | j :: rest => jsToString j ++ "," ++ jsArrToString rest

end

/-- Template-literal rendering of a possibly-absent property:
an absent property renders as the string `"undefined"`. -/
def jsTemplate : Option Json → String
  | none => "undefined"
  | some j => jsToString j

/-! ## Filesystem and file discovery

`findDataFiles` (`validate-cdm-schema.js` lines 139-160, and the identical
functions of the other two scripts) resolves the data directory relative to
the repository root, returns `[]` if it does not exist, and otherwise
recursively collects the names ending in `.json` (directory entries recurse
regardless of name; non-directory entries are kept iff the name ends in
`.json`).
-/

/-- A filesystem node: a file with text content, or a directory with named entries. -/
inductive FSTree where
  | file (content : String) : FSTree
  | dir (entries : List (String × FSTree)) : FSTree

/-- Resolve a path (list of segments) in a filesystem tree. `none` models
`fs.existsSync(p) === false`. -/
def resolvePath : FSTree → List String → Option FSTree
  | t, [] => some t
  | .file _, _ :: _ => none
  | .dir es, n :: rest =>
    match es.lookup n with
    | none => none
    | some t => resolvePath t rest

/-- The recursive `.json` collection performed by `findDataFiles` once the
directory exists, returning relative slash-joined paths in listing order. -/
def collectJson : FSTree → List String
  | .file _ => []
  | .dir [] => []
  | .dir ((n, .file _) :: rest) =>
      (if strEndsWith n ".json" then [n] else []) ++ collectJson (.dir rest)
  | .dir ((n, .dir inner) :: rest) =>
      ((collectJson (.dir inner)).map (fun s => n ++ "/" ++ s)) ++ collectJson (.dir rest)

/-- Relative path of the contact-data directory (`'data/contacts'`). -/
def contactsRelPath : List String := ["data", "contacts"]

/-- Relative path of the metadata-submissions directory (`'metadata/submissions'`). -/
def metadataRelPath : List String := ["metadata", "submissions"]

/-- C1 counterexample: the log of the zero-file run of the schema validator is
the fixed "no files found" message, which ends with neither the success phrase
nor the failure phrase. -/
theorem zero_file_log_ends_with_neither_phrase :
    cdmSchemaLog [] = noContactFilesMsg ∧
    ¬ EndsWithPhrase (cdmSchemaLog []) successPhrase ∧
    ¬ EndsWithPhrase (cdmSchemaLog []) failPhrase := by
  refine ⟨rfl, ?_, ?_⟩ <;> decide

/-- C1 (amended): for every run that discovers at least one file, each
validator's log ends with the success phrase iff every checked file was valid,
and with the failure phrase iff some file was invalid. -/
theorem validator_log_tail_contract (results : List FileResult) (h : results ≠ []) :
    ((EndsWithPhrase (cdmSchemaLog results) successPhrase ↔
        results.all (fun r => r.valid) = true) ∧
      (EndsWithPhrase (cdmSchemaLog results) failPhrase ↔
        results.all (fun r => r.valid) = false)) ∧
    ((EndsWithPhrase (businessRulesLog results) successPhrase ↔
        results.all (fun r => r.valid) = true) ∧
      (EndsWithPhrase (businessRulesLog results) failPhrase ↔
        results.all (fun r => r.valid) = false)) ∧
    ((EndsWithPhrase (metadataValidationLog results) successPhrase ↔
        results.all (fun r => r.valid) = true) ∧
      (EndsWithPhrase (metadataValidationLog results) failPhrase ↔
        results.all (fun r => r.valid) = false)) := by
  have hne : results.isEmpty = false := by
    cases results with
    | nil => exact absurd rfl h
    | cons a l => rfl
  simp only [cdmSchemaLog, businessRulesLog, metadataValidationLog, hne, Bool.false_eq_true,
    if_false]
  exact ⟨mkValidatorLog_ends_iff _ _ _ _, mkValidatorLog_ends_iff _ _ _ _,
    mkValidatorLog_ends_iff _ _ _ _⟩

/-- Witness for the amended C1 at a concrete one-file all-valid run. -/
theorem validator_log_tail_contract_witness :
    ([⟨"data/contacts/a.json", true⟩] : List FileResult) ≠ [] ∧
    EndsWithPhrase (cdmSchemaLog [⟨"data/contacts/a.json", true⟩]) successPhrase := by
  refine ⟨by simp, ?_⟩
  exact ((validator_log_tail_contract [⟨"data/contacts/a.json", true⟩] (by simp)).1.1).mpr
    (by decide)

/-! ## Report aggregator

The report generator reads the three validator logs (if present), classifies
each as passed/failed/unknown (`parseValidationOutput`, lines 84-112 of the
generator), counts files (`countFiles`, lines 60-82) and exits 0 iff all
three statuses are `'passed'` (`main`, lines 213-232).
-/

/-- The success phrase the aggregator searches for (`content.includes(...)`). -/
def aggSuccessPhrase : String := "validation checks passed!"

/-- The failure phrase the aggregator searches for. -/
def aggFailPhrase : String := "validation failed!"

/-- A validator status as classified by the aggregator. -/
inductive VStatus where
  | passed : VStatus
  | failed : VStatus
  | unknown : VStatus
deriving DecidableEq

/-- `parseValidationOutput`: passed if the content contains the success
phrase, else failed if it contains the failure phrase, else unknown. -/
def parseValidationOutput (content : String) : VStatus :=
  if strContainsSub content aggSuccessPhrase then .passed
  else if strContainsSub content aggFailPhrase then .failed
  else .unknown

/-- Status of one validator seen by the aggregator: the initial `'unknown'`
is kept when the log file is absent (`generateReport` lines 19-21 and 36-44). -/
def statusOf : Option String → VStatus
  | none => .unknown
  | some content => parseValidationOutput content

/-- Aggregator exit code (`main` lines 222-232): 0 iff every one of the three
validator statuses is `'passed'`. -/
def aggregatorExit (cdm business metadata : Option String) : Nat :=
  if statusOf cdm = .passed ∧ statusOf business = .passed ∧ statusOf metadata = .passed
  then 0 else 1

/-- C2: the aggregator exits 0 iff each of the three parsed statuses is
`passed`; an absent log, or a log containing neither phrase, parses as
`unknown`, and any status other than `passed` forces exit code 1 exactly as
`failed` does. -/
theorem aggregator_overall_iff_all_passed (cdm business metadata : Option String) :
    (aggregatorExit cdm business metadata = 0 ↔
      statusOf cdm = .passed ∧ statusOf business = .passed ∧ statusOf metadata = .passed) ∧
    statusOf none = .unknown ∧
    (∀ s : String, strContainsSub s aggSuccessPhrase = false →
      strContainsSub s aggFailPhrase = false → statusOf (some s) = .unknown) ∧
    (statusOf cdm ≠ .passed → aggregatorExit cdm business metadata = 1) ∧
    (statusOf business ≠ .passed → aggregatorExit cdm business metadata = 1) ∧
    (statusOf metadata ≠ .passed → aggregatorExit cdm business metadata = 1) := by
  refine ⟨?_, rfl, ?_, ?_, ?_, ?_⟩
  · unfold aggregatorExit
    split
    · next h => simpa using h
    · next h => simpa using h
  · intro s h1 h2
    simp [statusOf, parseValidationOutput, h1, h2]
  · intro h
    unfold aggregatorExit
    split
    · next hc => exact absurd hc.1 h
    · rfl
  · intro h
    unfold aggregatorExit
    split
    · next hc => exact absurd hc.2.1 h
    · rfl
  · intro h
    unfold aggregatorExit
    split
    · next hc => exact absurd hc.2.2 h
    · rfl

/-- Witness for C2: a run in which the metadata log is absent (status
`unknown`) exits 1, and a run with three passing logs exits 0. -/
theorem aggregator_overall_iff_all_passed_witness :
    statusOf (none : Option String) ≠ VStatus.passed ∧
    aggregatorExit (some "x\nAll validation checks passed!\n")
      (some "x\nAll validation checks passed!\n") none = 1 ∧
    aggregatorExit (some "All validation checks passed!")
      (some "All validation checks passed!") (some "All validation checks passed!") = 0 := by
  refine ⟨by decide, ?_, ?_⟩
  · exact (aggregator_overall_iff_all_passed (some "x\nAll validation checks passed!\n")
      (some "x\nAll validation checks passed!\n") none).2.2.2.2.2 (by decide)
  · exact ((aggregator_overall_iff_all_passed (some "All validation checks passed!")
      (some "All validation checks passed!") (some "All validation checks passed!")).1).mpr
      (by refine ⟨?_, ?_, ?_⟩ <;> decide)

/-- The aggregator's file-count record (`fileCount`). -/
structure FileCounts where
  total : Nat
  contacts : Nat
  metadata : Nat
deriving DecidableEq

/-- Number of names in a directory listing that end in `.json`
(`fs.readdirSync(dir).filter(f => f.endsWith('.json')).length`) — top level
only, and counting subdirectory names too. -/
def topLevelJsonCount (es : List (String × FSTree)) : Nat :=
  (es.filter (fun e => strEndsWith e.1 ".json")).length

/-- The contacts part of `countFiles` (report generator lines 63-70), with the
quirk of the source modelled faithfully: the existence check joins the
repository root twice (`fs.existsSync(path.join(repoRoot, contactsDir))`
where `contactsDir` is already `path.join(repoRoot, 'data/contacts')`), so
the count stays 0 unless the doubled path exists; the listing itself is
non-recursive. `none` models a thrown `readdirSync` error. -/
def countContacts (fs : FSTree) (root : List String) : Option Nat :=
  match resolvePath fs (root ++ (root ++ contactsRelPath)) with
  | none => some 0
  | some _ =>
    match resolvePath fs (root ++ contactsRelPath) with
    | some (.dir es) => some (topLevelJsonCount es)
    | _ => none

/-- The metadata part of `countFiles` (lines 72-78): a non-recursive top-level
listing of `metadata/submissions` when it exists, else 0. -/
def countMetadata (fs : FSTree) (root : List String) : Option Nat :=
  match resolvePath fs (root ++ metadataRelPath) with
  | none => some 0
  | some (.dir es) => some (topLevelJsonCount es)
  | some (.file _) => none

/-- `countFiles` (report generator lines 60-82): `total = contacts + metadata`. -/
def countFiles (fs : FSTree) (root : List String) : Option FileCounts :=
  match countContacts fs root, countMetadata fs root with
  | some c, some m => some ⟨c + m, c, m⟩
  | _, _ => none

/-- The number of `.json` files at any depth under a directory path, as a
recursive traversal would count them (0 when the path is absent). -/
def recursiveJsonCount (fs : FSTree) (p : List String) : Nat :=
  match resolvePath fs p with
  | some t => (collectJson t).length
  | none => 0

/-- Filesystem for the C5 counterexample: one contact file nested one level
below `data/contacts`, an empty metadata directory. -/
def c5Fs : FSTree :=
  .dir [("repo", .dir
    [("data", .dir [("contacts", .dir [("sub", .dir [("a.json", .file "x")])])]),
     ("metadata", .dir [("submissions", .dir [])])])]

/-- C5 counterexample: on `c5Fs` the recursive count of contact files is 1,
but `countFiles` reports 0 contacts (its existence check looks at the doubled
path `repo/repo/data/contacts`, which does not exist), refuting the claimed
equality with the recursive counts. -/
theorem countFiles_not_recursive_counterexample :
    countFiles c5Fs ["repo"] = some ⟨0, 0, 0⟩ ∧
    recursiveJsonCount c5Fs (["repo"] ++ contactsRelPath) = 1 ∧
    ¬ ∃ fc, countFiles c5Fs ["repo"] = some fc ∧
        fc.contacts = recursiveJsonCount c5Fs (["repo"] ++ contactsRelPath) := by
  have e1 : countFiles c5Fs ["repo"] = some ⟨0, 0, 0⟩ := by decide
  have e2 : recursiveJsonCount c5Fs (["repo"] ++ contactsRelPath) = 1 := by
    simp +decide [recursiveJsonCount, resolvePath, collectJson, c5Fs, contactsRelPath]
  refine ⟨e1, e2, ?_⟩
  rintro ⟨fc, h1, h2⟩
  rw [e1] at h1
  rw [e2] at h2
  cases h1
  exact absurd h2 (by decide)

/-- C5 (amended): `fileCount.contacts` is 0 whenever the doubled existence
path is absent; `fileCount.metadata` is the non-recursive top-level `.json`
count of the metadata directory; `total` is their sum. -/
theorem countFiles_characterization (fs : FSTree) (root : List String) :
    (resolvePath fs (root ++ (root ++ contactsRelPath)) = none →
      ∀ fc, countFiles fs root = some fc → fc.contacts = 0) ∧
    (∀ es, resolvePath fs (root ++ metadataRelPath) = some (.dir es) →
      ∀ fc, countFiles fs root = some fc → fc.metadata = topLevelJsonCount es) ∧
    (∀ fc, countFiles fs root = some fc → fc.total = fc.contacts + fc.metadata) := by
  refine ⟨?_, ?_, ?_⟩
  · intro h fc hfc
    have hc : countContacts fs root = some 0 := by
      unfold countContacts
      rw [h]
    cases hm : countMetadata fs root with
    | none => simp [countFiles, hc, hm] at hfc
    | some m =>
      simp only [countFiles, hc, hm] at hfc
      cases hfc
      rfl
  · intro es h fc hfc
    have hm : countMetadata fs root = some (topLevelJsonCount es) := by
      unfold countMetadata
      rw [h]
    cases hc : countContacts fs root with
    | none => simp [countFiles, hc, hm] at hfc
    | some c =>
      simp only [countFiles, hc, hm] at hfc
      cases hfc
      rfl
  · intro fc hfc
    unfold countFiles at hfc
    revert hfc
    split
    · intro hfc
      cases hfc
      rfl
    · intro hfc
      cases hfc

/-- Witness for the amended C5 on the counterexample filesystem. -/
theorem countFiles_characterization_witness :
    resolvePath c5Fs (["repo"] ++ (["repo"] ++ contactsRelPath)) = none ∧
    (countFiles c5Fs ["repo"]).map (fun fc => fc.contacts) = some 0 := by
  refine ⟨rfl, ?_⟩
  have h := (countFiles_characterization c5Fs ["repo"]).1 rfl
  have e1 : countFiles c5Fs ["repo"] = some ⟨0, 0, 0⟩ := by decide
  rw [e1]
  simp [h ⟨0, 0, 0⟩ e1]

/-! ## Dates

Model of the JavaScript `Date` behaviour the validators rely on:
`new Date(string)` parsing of the ECMA-262 ISO-8601 date-time string format
(forms `YYYY[-MM[-DD]]` optionally followed by `THH:mm[:ss[.sss]]` and an
offset `Z`/`+HH:mm`/`-HH:mm`), and `Date.prototype.toISOString` rendering.
Strings without an offset are interpreted as UTC (the scripts run in a UTC
CI environment); implementation-specific non-ISO parse formats, expanded
`+YYYYYY` years and the `T24:00` edge form are not modelled. Epoch
arithmetic uses the standard civil-calendar conversion with
truncating division, on which every division here has a non-negative or
explicitly adjusted numerator.
-/

/-- Leap-year rule of the proleptic Gregorian calendar. -/
def isLeapYear (y : Int) : Bool :=
  (y.tmod 4 == 0 && y.tmod 100 != 0) || y.tmod 400 == 0

/-- Days in a month. -/
def daysInMonth (y : Int) (mo : Nat) : Nat :=
  if mo == 2 then (if isLeapYear y then 29 else 28)
  else if mo == 4 || mo == 6 || mo == 9 || mo == 11 then 30
  else 31

/-- Days since the Unix epoch of a civil date. -/
def daysFromCivil (y m d : Int) : Int :=
  let yy := if m ≤ 2 then y - 1 else y
  let era := (if 0 ≤ yy then yy else yy - 399).tdiv 400
  let yoe := yy - era * 400
  let mp := (m + 9).tmod 12
  let doy := (153 * mp + 2).tdiv 5 + d - 1
  let doe := yoe * 365 + yoe.tdiv 4 - yoe.tdiv 100 + doy
  era * 146097 + doe - 719468

/-- Civil date of a day count since the Unix epoch. -/
def civilFromDays (z0 : Int) : Int × Int × Int :=
  let z := z0 + 719468
  let era := (if 0 ≤ z then z else z - 146096).tdiv 146097
  let doe := z - era * 146097
  let yoe := (doe - doe.tdiv 1460 + doe.tdiv 36524 - doe.tdiv 146096).tdiv 365
  let y := yoe + era * 400
  let doy := doe - (365 * yoe + yoe.tdiv 4 - yoe.tdiv 100)
  let mp := (5 * doy + 2).tdiv 153
  let d := doy - (153 * mp + 2).tdiv 5 + 1
  let m := mp + (if mp < 10 then 3 else -9)
  (if m ≤ 2 then y + 1 else y, m, d)

/-- Consume exactly `n` decimal digits, accumulating their value. -/
def takeDigitsAux : Nat → Nat → List Char → Option (Nat × List Char)
  | 0, acc, cs => some (acc, cs)
  | n + 1, acc, c :: cs =>
    if c.isDigit then takeDigitsAux n (acc * 10 + (c.toNat - 48)) cs else none
  | _ + 1, _, [] => none

/-- Parse the `HH:mm[:ss[.sss]]` time part. -/
def parseTime (cs : List Char) : Option (Nat × Nat × Nat × Nat × List Char) :=
  match takeDigitsAux 2 0 cs with
  | none => none
  | some (h, rest) =>
    match rest with
    | ':' :: rest2 =>
      match takeDigitsAux 2 0 rest2 with
      | none => none
      | some (mi, rest3) =>
        match rest3 with
        | ':' :: rest4 =>
          match takeDigitsAux 2 0 rest4 with
          | none => none
          | some (sec, rest5) =>
            match rest5 with
            | '.' :: rest6 =>
              match takeDigitsAux 3 0 rest6 with
              | none => none
              | some (ms, rest7) => some (h, mi, sec, ms, rest7)
            | _ => some (h, mi, sec, 0, rest5)
        | _ => some (h, mi, 0, 0, rest3)
    | _ => none

/-- Parse the timezone offset (in minutes); an absent offset is UTC. -/
def parseOffset : List Char → Option (Int × List Char)
  | 'Z' :: rest => some (0, rest)
  | '+' :: rest =>
    match takeDigitsAux 2 0 rest with
    | some (h, ':' :: rest2) =>
      match takeDigitsAux 2 0 rest2 with
      | some (mi, rest3) => some ((h * 60 + mi : Nat), rest3)
      | none => none
    | _ => none
  | '-' :: rest =>
    match takeDigitsAux 2 0 rest with
    | some (h, ':' :: rest2) =>
      match takeDigitsAux 2 0 rest2 with
      | some (mi, rest3) => some (-((h * 60 + mi : Nat) : Int), rest3)
      | none => none
    | _ => none
  | cs => some (0, cs)

/-- Epoch milliseconds of a civil date at midnight UTC. -/
def dayMillis (y : Int) (mo d : Nat) : Int :=
  daysFromCivil y (mo : Int) (d : Int) * 86400000

/-- Date-part continuation of the ISO parse: validate ranges, then an
optional time part. -/
def parseDateCont (y : Nat) (mo d : Nat) (rest : List Char) : Option Int :=
  if mo < 1 || 12 < mo || d < 1 || daysInMonth (y : Int) mo < d then none
  else match rest with
  | [] => some (dayMillis (y : Int) mo d)
  | 'T' :: tr =>
    match parseTime tr with
    | none => none
    | some (h, mi, sec, ms, rest2) =>
      if 23 < h || 59 < mi || 59 < sec then none
      else match parseOffset rest2 with
        | some (off, []) =>
          some (dayMillis (y : Int) mo d +
            ((h * 3600000 + mi * 60000 + sec * 1000 + ms : Nat) : Int) - off * 60000)
        | _ => none
  | _ => none

/-- `new Date(string)`: epoch milliseconds, or `none` for an Invalid Date. -/
def jsDateParse (str : String) : Option Int :=
  match takeDigitsAux 4 0 str.data with
  | none => none
  | some (y, r1) =>
    match r1 with
    | '-' :: r2 =>
      match takeDigitsAux 2 0 r2 with
      | none => none
      | some (mo, r3) =>
        match r3 with
        | '-' :: r4 =>
          match takeDigitsAux 2 0 r4 with
          | none => none
          | some (d, r5) => parseDateCont y mo d r5
        | _ => parseDateCont y mo 1 r3
    | _ => parseDateCont y 1 1 r1

/-- Zero-padded decimal rendering. -/
def padNum (n width : Nat) : String :=
  let s := toString n
  String.mk (List.replicate (width - s.length) '0') ++ s

/-- `Date.prototype.toISOString` (for epoch values whose year is 0-9999). -/
def renderISO (t : Int) : String :=
  let days := t.fdiv 86400000
  let msOfDay := (t - days * 86400000).toNat
  let ymd := civilFromDays days
  let h := msOfDay / 3600000
  let mi := msOfDay / 60000 % 60
  let sec := msOfDay / 1000 % 60
  let ms := msOfDay % 1000
  padNum ymd.1.toNat 4 ++ "-" ++ padNum ymd.2.1.toNat 2 ++ "-" ++ padNum ymd.2.2.toNat 2 ++
    "T" ++ padNum h 2 ++ ":" ++ padNum mi 2 ++ ":" ++ padNum sec 2 ++ "." ++ padNum ms 3 ++ "Z"

/-- `isValidISODate` of `validate-cdm-schema.js` (lines 130-137), and the
round-trip test of `validate-metadata.js` (lines 43-47):
`new Date(s).toISOString() === s`, where a parse failure models the
`toISOString` throw caught as invalid. -/
def isValidISODate (s : String) : Bool :=
  match jsDateParse s with
  | none => false
  | some t => renderISO t == s

/-! ## Metadata validator

`validateMetadata` (`validate-metadata.js` lines 12-127). Regular expressions
of the source are implemented as direct character tests; `test` coerces a
non-string argument with `String(...)`, modelled by `jsToString`.
-/

/-- ASCII lowercase letter. -/
def isLowerAlpha (c : Char) : Bool := 97 ≤ c.toNat && c.toNat ≤ 122

/-- ASCII lowercase letter or digit (the class `[a-z0-9]`). -/
def isLowerAlnum (c : Char) : Bool := isLowerAlpha c || c.isDigit

/-- `/^\d{13}-[a-z0-9]{9}$/` (line 33). -/
def submissionIdOk (s : String) : Bool :=
  let cs := s.data
  cs.length == 23 && (cs.take 13).all Char.isDigit &&
    (cs.drop 13).head? == some '-' && (cs.drop 14).all isLowerAlnum

/-- Consume exactly `n` characters satisfying `p`. -/
def matchClass (p : Char → Bool) : Nat → List Char → Option (List Char)
  | 0, cs => some cs
  | n + 1, c :: cs => if p c then matchClass p n cs else none
  | _ + 1, [] => none

/-- Consume a literal character sequence. -/
def matchLit : List Char → List Char → Option (List Char)
  | [], cs => some cs
  | l :: ls, c :: cs => if c == l then matchLit ls cs else none
  | _ :: _, [] => none

/-- The date-time tail `\d{4}-\d{2}-\d{2}t\d{2}-\d{2}-\d{2}-\d{3}z` of the
branch pattern, on lowercased input. -/
def branchTailOk (cs : List Char) : Bool :=
  match matchClass Char.isDigit 4 cs with
  | none => false
  | some r1 =>
    match matchLit ['-'] r1 with
    | none => false
    | some r2 =>
      match matchClass Char.isDigit 2 r2 with
      | none => false
      | some r3 =>
        match matchLit ['-'] r3 with
        | none => false
        | some r4 =>
          match matchClass Char.isDigit 2 r4 with
          | none => false
          | some r5 =>
            match matchLit ['t'] r5 with
            | none => false
            | some r6 =>
              match matchClass Char.isDigit 2 r6 with
              | none => false
              | some r7 =>
                match matchLit ['-'] r7 with
                | none => false
                | some r8 =>
                  match matchClass Char.isDigit 2 r8 with
                  | none => false
                  | some r9 =>
                    match matchLit ['-'] r9 with
                    | none => false
                    | some r10 =>
                      match matchClass Char.isDigit 2 r10 with
                      | none => false
                      | some r11 =>
                        match matchLit ['-'] r11 with
                        | none => false
                        | some r12 =>
                          match matchClass Char.isDigit 3 r12 with
                          | none => false
                          | some r13 => matchLit ['z'] r13 == some []

/-- `/^(contact|feature|hotfix)-[a-z0-9]{8}-...z$/i` (lines 75-76): the `/i`
flag is modelled by lowercasing the (ASCII) input first. -/
def gitBranchOk (s : String) : Bool :=
  let cs := (lowerStr s).data
  let afterPrefix : Option (List Char) :=
    match matchLit "contact-".data cs with
    | some r => some r
    | none =>
      match matchLit "feature-".data cs with
      | some r => some r
      | none => matchLit "hotfix-".data cs
  match afterPrefix with
  | none => false
  | some r1 =>
    match matchClass isLowerAlnum 8 r1 with
    | none => false
    | some r2 =>
      match matchLit ['-'] r2 with
      | none => false
      | some r3 => branchTailOk r3

/-- `/^\d+\.\d+$/` (line 87). -/
def versionOk (s : String) : Bool :=
  let ds := s.data.takeWhile Char.isDigit
  let rest := s.data.dropWhile Char.isDigit
  ds != [] &&
    match rest with
    | '.' :: tl => tl != [] && tl.all Char.isDigit
    | _ => false

/-- Split a character list at a separator character (JavaScript
`String.prototype.split` with a one-character separator). -/
def splitOnChar (sep : Char) : List Char → List (List Char)
  | [] => [[]]
  | c :: cs =>
    let r := splitOnChar sep cs
    if c == sep then [] :: r
    else match r with
      | [] => [[c]]
      | h :: t => (c :: h) :: t

/-- `/^[a-z]+(\.[a-z]+)*\.[a-z]+$/` (line 96): at least two dot-separated
non-empty lowercase-alphabetic segments. -/
def namespaceOk (s : String) : Bool :=
  let segs := splitOnChar '.' s.data
  2 ≤ segs.length && segs.all (fun seg => seg != [] && seg.all isLowerAlpha)

/-- Truthiness of a record property (`!metadata[field]` on an absent field is
true, since `undefined` is falsy). -/
def truthyField (m : Json) (k : String) : Bool :=
  match getField m k with
  | some v => truthy v
  | none => false

/-- The required-fields loop (lines 17-29). -/
def requiredFieldViolations (m : Json) : List String :=
  (["submissionId", "processedAt", "gitBranch", "gitCommitMessage"].filter
    (fun f => !truthyField m f)).map
    (fun f => "Missing required metadata field: " ++ f)

/-- The submissionId format check (lines 32-38). -/
def submissionIdViolations (m : Json) : List String :=
  match getField m "submissionId" with
  | some v =>
    if truthy v && !submissionIdOk (jsToString v) then
      ["Invalid submissionId format: " ++ jsToString v]
    else []
  | none => []

/-- The epoch value `new Date(v)` produces for a non-string record property:
a number is taken as milliseconds, `true` coerces to 1, arrays coerce through
their string form, objects are invalid. -/
def jsDateOfJson : Json → Option Int
  | .num n => some n
  | .bool b => some (if b then 1 else 0)
  | .str s => jsDateParse s
  | .arr items => jsDateParse (jsArrToString items)
  | .null => some 0
  | .obj _ => none

/-- The processedAt checks (lines 41-71): format round-trip, then the
not-in-the-future rule; a non-string value always fails the strict `!==`
round-trip comparison. -/
def processedAtViolations (m : Json) (now : Int) : List String :=
  match getField m "processedAt" with
  | some v =>
    if truthy v then
      let sv := jsToString v
      let t? := jsDateOfJson v
      let isStr := match v with | .str _ => true | _ => false
      (match t? with
       | none => ["Invalid processedAt timestamp: " ++ sv]
       | some t =>
         if isStr && renderISO t == sv then []
         else ["Invalid processedAt timestamp: " ++ sv]) ++
      (match t? with
       | some t => if now < t then ["processedAt timestamp cannot be in the future"] else []
       | none => [])
    else []
  | none => []

/-- The git branch naming check (lines 74-83). -/
def gitBranchViolations (m : Json) : List String :=
  match getField m "gitBranch" with
  | some v =>
    if truthy v && !gitBranchOk (jsToString v) then
      ["Git branch does not follow naming convention: " ++ jsToString v]
    else []
  | none => []

/-- The schema version check (lines 86-92). -/
def versionViolations (m : Json) : List String :=
  match getField m "version" with
  | some v =>
    if truthy v && !versionOk (jsToString v) then
      ["Invalid CDM schema version format: " ++ jsToString v]
    else []
  | none => []

/-- The namespace check (lines 95-101). -/
def namespaceViolations (m : Json) : List String :=
  match getField m "namespace" with
  | some v =>
    if truthy v && !namespaceOk (jsToString v) then
      ["Invalid CDM namespace format: " ++ jsToString v]
    else []
  | none => []

/-- The record count check (lines 104-109): `recordCount !== undefined`
requires a non-negative integer (`Number.isInteger` holds only of numbers). -/
def recordCountViolations (m : Json) : List String :=
  match getField m "recordCount" with
  | some v =>
    match v with
    | .num n => if n < 0 then ["Invalid recordCount: " ++ jsToString v] else []
    | _ => ["Invalid recordCount: " ++ jsToString v]
  | none => []

/-- The referential-integrity check (lines 111-124): when submissionId is
truthy, the contact file named `` `${metadata.contactId}.json` `` must exist;
an absent `contactId` renders as the literal string `"undefined"`.
`contactFileExists` models `fs.existsSync` within the contacts directory and
`contactsDirStr` is the resolved directory used in the message. -/
def referentialViolations (m : Json) (contactsDirStr : String)
    (contactFileExists : String → Bool) : List String :=
  if truthyField m "submissionId" then
    let name := jsTemplate (getField m "contactId") ++ ".json"
    if contactFileExists name then []
    else ["Referenced data file not found: " ++ contactsDirStr ++ "/" ++ name]
  else []

/-- All violations of `validateMetadata`, in push order. -/
def metadataViolations (m : Json) (contactsDirStr : String)
    (contactFileExists : String → Bool) (now : Int) : List String :=
  requiredFieldViolations m ++ submissionIdViolations m ++
    processedAtViolations m now ++ gitBranchViolations m ++ versionViolations m ++
    namespaceViolations m ++ recordCountViolations m ++
    referentialViolations m contactsDirStr contactFileExists

/-- `validateMetadata` result: the source sets `isValid` to false exactly at
each violation push, so validity is emptiness of the violation list. -/
def validateMetadata (m : Json) (contactsDirStr : String)
    (contactFileExists : String → Bool) (now : Int) : Bool × List String :=
  let vs := metadataViolations m contactsDirStr contactFileExists now
  (vs.isEmpty, vs)

/-- The metadata record of the C7 end-to-end scenario. -/
def c7Metadata : Json :=
  .obj [("submissionId", .str "invalid-format"),
        ("processedAt", .str "invalid-date"),
        ("gitBranch", .str "invalid branch name")]

/-- C7: the scenario record fails validation with at least four violations,
one from each of the four independent checks, for every filesystem state and
clock value. -/
theorem metadata_fourfold_failure (cdir : String) (ex : String → Bool) (now : Int) :
    (validateMetadata c7Metadata cdir ex now).1 = false ∧
    4 ≤ (validateMetadata c7Metadata cdir ex now).2.length ∧
    "Missing required metadata field: gitCommitMessage" ∈
      (validateMetadata c7Metadata cdir ex now).2 ∧
    "Invalid submissionId format: invalid-format" ∈
      (validateMetadata c7Metadata cdir ex now).2 ∧
    "Invalid processedAt timestamp: invalid-date" ∈
      (validateMetadata c7Metadata cdir ex now).2 ∧
    "Git branch does not follow naming convention: invalid branch name" ∈
      (validateMetadata c7Metadata cdir ex now).2 := by
  have h1 : requiredFieldViolations c7Metadata =
      ["Missing required metadata field: gitCommitMessage"] := by decide
  have h2 : submissionIdViolations c7Metadata =
      ["Invalid submissionId format: invalid-format"] := by decide
  have h3 : processedAtViolations c7Metadata now =
      ["Invalid processedAt timestamp: invalid-date"] := by
    have hg : getField c7Metadata "processedAt" = some (.str "invalid-date") := rfl
    have hd : jsDateParse "invalid-date" = none := by decide
    simp [processedAtViolations, hg, jsDateOfJson, hd, truthy, jsToString]
  have h4 : gitBranchViolations c7Metadata =
      ["Git branch does not follow naming convention: invalid branch name"] := by decide
  have h5 : versionViolations c7Metadata = [] := by decide
  have h6 : namespaceViolations c7Metadata = [] := by decide
  have h7 : recordCountViolations c7Metadata = [] := by decide
  have hmv : metadataViolations c7Metadata cdir ex now =
      ["Missing required metadata field: gitCommitMessage",
       "Invalid submissionId format: invalid-format",
       "Invalid processedAt timestamp: invalid-date",
       "Git branch does not follow naming convention: invalid branch name"] ++
      referentialViolations c7Metadata cdir ex := by
    unfold metadataViolations
    rw [h1, h2, h3, h4, h5, h6, h7]
    simp
  refine ⟨?_, ?_, ?_, ?_, ?_, ?_⟩
  · simp [validateMetadata, hmv]
  · simp only [validateMetadata, hmv, List.length_append, List.length_cons, List.length_nil]
    omega
  · simp [validateMetadata, hmv]
  · simp [validateMetadata, hmv]
  · simp [validateMetadata, hmv]
  · simp [validateMetadata, hmv]

/-- C10: a metadata record with truthy submissionId and no contactId makes the
referential check look for the literal file `undefined.json`; when that file
is absent the record is invalid with the referenced-file violation, for every
clock value and regardless of the other checks. -/
theorem referential_check_undefined_json (m : Json) (cdir : String)
    (ex : String → Bool) (now : Int)
    (hsub : truthyField m "submissionId" = true)
    (hcid : getField m "contactId" = none)
    (hex : ex "undefined.json" = false) :
    (validateMetadata m cdir ex now).1 = false ∧
    ("Referenced data file not found: " ++ cdir ++ "/" ++ "undefined.json") ∈
      (validateMetadata m cdir ex now).2 := by
  have hname : jsTemplate (getField m "contactId") ++ ".json" = "undefined.json" := by
    rw [hcid]
    decide
  have href : referentialViolations m cdir ex =
      ["Referenced data file not found: " ++ cdir ++ "/" ++ "undefined.json"] := by
    unfold referentialViolations
    rw [hsub]
    simp only [if_true]
    rw [hname, hex]
    simp
  have hmem : ("Referenced data file not found: " ++ cdir ++ "/" ++ "undefined.json") ∈
      metadataViolations m cdir ex now := by
    unfold metadataViolations
    rw [href]
    simp
  refine ⟨?_, hmem⟩
  have hne := List.ne_nil_of_mem hmem
  simp only [validateMetadata]
  cases h : (metadataViolations m cdir ex now).isEmpty
  · rfl
  · exact absurd (List.isEmpty_iff.mp h) hne

/-- The metadata record of the C10 witness: every other check passes. -/
def c10Metadata : Json :=
  .obj [("submissionId", .str "1700000000000-abc123xyz"),
        ("processedAt", .str "2024-01-01T00:00:00.000Z"),
        ("gitBranch", .str "contact-abcd1234-2024-01-01t12-00-00-000z"),
        ("gitCommitMessage", .str "Add contact: John Doe")]

/-- Witness for C10: on a record passing all other checks, the only violation
is the referential one against `undefined.json`, and the record is invalid. -/
theorem referential_check_undefined_json_witness :
    truthyField c10Metadata "submissionId" = true ∧
    getField c10Metadata "contactId" = none ∧
    metadataViolations c10Metadata "/repo/data/contacts" (fun _ => false) 1717200000000 =
      ["Referenced data file not found: /repo/data/contacts/undefined.json"] ∧
    (validateMetadata c10Metadata "/repo/data/contacts" (fun _ => false) 1717200000000).1 = false ∧
    ("Referenced data file not found: " ++ "/repo/data/contacts" ++ "/" ++ "undefined.json") ∈
      (validateMetadata c10Metadata "/repo/data/contacts" (fun _ => false) 1717200000000).2 := by
  refine ⟨by decide, rfl, by decide, ?_, ?_⟩
  · exact (referential_check_undefined_json c10Metadata "/repo/data/contacts"
      (fun _ => false) 1717200000000 (by decide) rfl rfl).1
  · exact (referential_check_undefined_json c10Metadata "/repo/data/contacts"
      (fun _ => false) 1717200000000 (by decide) rfl rfl).2

/-! ## Contact schema validator (Joi schema + CDM compliance)

`validate-cdm-schema.js`: the Joi `cdmContactSchema` (lines 13-47) validated
with `abortEarly: false, allowUnknown: false` (lines 56-59), then
`validateCDMCompliance` (lines 86-123). Joi errors are modelled as structured
`JoiError` values rather than Joi's message strings; the library semantics
modelled per field are: a `required()` field errors when absent; `string()`
rejects non-strings and the empty string unless `allow('')`; `allow(null)`
admits null; `max(n)` bounds the length; `default(fn)` on an absent field
calls `fn`, and an exception there (here `uuidv4`, which is never imported or
defined in the script) becomes an `any.default` validation error;
`valid(...)` admits only the listed values; `boolean()` with the default
convert option also admits the strings `'true'`/`'false'`; the `tags`
alternatives end in `Joi.allow(null)`, an `any()` matcher that admits every
value, so `tags` never errors; `email()` is modelled as the usual
local-part`@`dotted-domain shape with an alphabetic TLD (standing in for the
library's TLD list). -/

/-- A structured Joi validation error of the contact schema. -/
inductive JoiError where
  | defaultThrew (field : String) : JoiError
  | required (field : String) : JoiError
  | notString (field : String) : JoiError
  | emptyString (field : String) : JoiError
  | tooLong (field : String) (maxLen : Nat) : JoiError
  | invalidEmail (field : String) : JoiError
  | patternMismatch (field : String) : JoiError
  | notInEnum (field : String) : JoiError
  | notBoolean (field : String) : JoiError
  | notObjectType (field : String) : JoiError
  | unknownKey (field : String) : JoiError
deriving DecidableEq

/-- A violation reported by `validateFile`: a Joi schema error, or a printed
CDM-compliance message. -/
inductive Violation where
  | joi (e : JoiError) : Violation
  | cdm (msg : String) : Violation
deriving DecidableEq

/-- ASCII uppercase letter, by code point. -/
def isUpperAscii (c : Char) : Bool := 65 ≤ c.toNat && c.toNat ≤ 90

/-- JavaScript `\s` on the ASCII range plus NBSP. -/
def jsWhitespace (c : Char) : Bool :=
  c == ' ' || c == '\t' || c == '\n' || c == '\r' ||
    c.toNat == 11 || c.toNat == 12 || c.toNat == 160

/-- Characters admitted in the local part of the modelled email shape. -/
def isEmailLocalChar (c : Char) : Bool :=
  c.isAlphanum || c == '.' || c == '_' || c == '%' || c == '+' || c == '-'

/-- Characters admitted in a domain label. -/
def isDomainChar (c : Char) : Bool := c.isAlphanum || c == '-'

/-- Model of Joi's `string().email()` (see the section comment). -/
def emailOk (s : String) : Bool :=
  match splitOnChar '@' s.data with
  | [localPart, domain] =>
    localPart != [] && localPart.all isEmailLocalChar &&
      (let labels := splitOnChar '.' domain
       decide (2 ≤ labels.length) && labels.all (fun l => l != [] && l.all isDomainChar) &&
         (match labels.getLast? with
          | some tld => decide (2 ≤ tld.length) && tld.all Char.isAlpha
          | none => false))
  | _ => false

/-- `contactId: Joi.string().default(() => uuidv4())` — an absent field makes
Joi call the default, and `uuidv4` is not defined anywhere in the script, so
the call throws and Joi reports an `any.default` error. -/
def checkContactId (v : Option Json) : List JoiError :=
  match v with
  | none => [.defaultThrew "contactId"]
  | some (.str "") => [.emptyString "contactId"]
  | some (.str _) => []
  | some _ => [.notString "contactId"]

/-- `fullName: Joi.string().required().min(1).max(255)`. -/
def checkFullName (v : Option Json) : List JoiError :=
  match v with
  | none => [.required "fullName"]
  | some (.str "") => [.emptyString "fullName"]
  | some (.str s) => if 255 < s.length then [.tooLong "fullName" 255] else []
  | some _ => [.notString "fullName"]

/-- `emailAddress: Joi.string().email().required()`. -/
def checkEmailAddress (v : Option Json) : List JoiError :=
  match v with
  | none => [.required "emailAddress"]
  | some (.str "") => [.emptyString "emailAddress"]
  | some (.str s) => if emailOk s then [] else [.invalidEmail "emailAddress"]
  | some _ => [.notString "emailAddress"]

/-- The loose phone pattern `/^[\+]?[0-9\s\-\(\)]+$/`. -/
def phoneLooseOk (s : String) : Bool :=
  match s.data with
  | '+' :: rest => rest != [] && rest.all (fun c =>
      c.isDigit || jsWhitespace c || c == '-' || c == '(' || c == ')')
  | cs => cs != [] && cs.all (fun c =>
      c.isDigit || jsWhitespace c || c == '-' || c == '(' || c == ')')

/-- `phoneNumber: Joi.string().pattern(...).optional().allow(null, "")`. -/
def checkPhoneNumber (v : Option Json) : List JoiError :=
  match v with
  | none => []
  | some .null => []
  | some (.str "") => []
  | some (.str s) => if phoneLooseOk s then [] else [.patternMismatch "phoneNumber"]
  | some _ => [.notString "phoneNumber"]

/-- An optional string field with `max(n)` and `allow(null, "")`. -/
def checkOptMaxString (name : String) (maxLen : Nat) (v : Option Json) : List JoiError :=
  match v with
  | none => []
  | some .null => []
  | some (.str "") => []
  | some (.str s) => if maxLen < s.length then [.tooLong name maxLen] else []
  | some _ => [.notString name]

/-- `preferredContactMethod: Joi.string().valid("email","phone","mail").default("email")`. -/
def checkPreferredContactMethod (v : Option Json) : List JoiError :=
  match v with
  | none => []
  | some (.str "email") => []
  | some (.str "phone") => []
  | some (.str "mail") => []
  | some _ => [.notInEnum "preferredContactMethod"]

/-- `isActive: Joi.boolean().default(true)` (convert admits `'true'`/`'false'`). -/
def checkIsActive (v : Option Json) : List JoiError :=
  match v with
  | none => []
  | some (.bool _) => []
  | some (.str s) =>
    if lowerStr s == "true" || lowerStr s == "false" then [] else [.notBoolean "isActive"]
  | some _ => [.notBoolean "isActive"]

/-- `customFields: Joi.object().optional().allow(null, {})`. -/
def checkCustomFields (v : Option Json) : List JoiError :=
  match v with
  | none => []
  | some .null => []
  | some (.obj _) => []
  | some _ => [.notObjectType "customFields"]

/-- `createdBy`/`modifiedBy`: `Joi.string().default("system")`. -/
def checkDefaultedString (name : String) (v : Option Json) : List JoiError :=
  match v with
  | none => []
  | some (.str "") => [.emptyString name]
  | some (.str _) => []
  | some _ => [.notString name]

/-- The keys of `cdmContactSchema`. -/
def contactSchemaKeys : List String :=
  ["contactId", "fullName", "emailAddress", "phoneNumber", "company", "addressLine1",
   "addressLine2", "city", "stateProvince", "postalCode", "country", "jobTitle",
   "department", "preferredContactMethod", "isActive", "notes", "tags", "customFields",
   "createdOn", "modifiedOn", "createdBy", "modifiedBy"]

/-- `allowUnknown: false`: every key outside the schema is an error. -/
def checkUnknownKeys (fields : List (String × Json)) : List JoiError :=
  (fields.filter (fun f => !contactSchemaKeys.contains f.1)).map (fun f => .unknownKey f.1)

/-- All Joi errors of `cdmContactSchema.validate(data, {abortEarly: false,
allowUnknown: false})`; a non-object input fails the object type check.
The `tags` field never errors (see the section comment). -/
def joiContactErrors (j : Json) : List JoiError :=
  match j with
  | .obj fields =>
    checkContactId (getField j "contactId") ++
    checkFullName (getField j "fullName") ++
    checkEmailAddress (getField j "emailAddress") ++
    checkPhoneNumber (getField j "phoneNumber") ++
    checkOptMaxString "company" 255 (getField j "company") ++
    checkOptMaxString "addressLine1" 255 (getField j "addressLine1") ++
    checkOptMaxString "addressLine2" 255 (getField j "addressLine2") ++
    checkOptMaxString "city" 100 (getField j "city") ++
    checkOptMaxString "stateProvince" 100 (getField j "stateProvince") ++
    checkOptMaxString "postalCode" 20 (getField j "postalCode") ++
    checkOptMaxString "country" 100 (getField j "country") ++
    checkOptMaxString "jobTitle" 255 (getField j "jobTitle") ++
    checkOptMaxString "department" 255 (getField j "department") ++
    checkPreferredContactMethod (getField j "preferredContactMethod") ++
    checkIsActive (getField j "isActive") ++
    checkOptMaxString "notes" 1000 (getField j "notes") ++
    checkCustomFields (getField j "customFields") ++
    checkOptMaxString "createdOn" 255 (getField j "createdOn") ++
    checkOptMaxString "modifiedOn" 255 (getField j "modifiedOn") ++
    checkDefaultedString "createdBy" (getField j "createdBy") ++
    checkDefaultedString "modifiedBy" (getField j "modifiedBy") ++
    checkUnknownKeys fields
  | _ => [.notObjectType "value"]

/-- ASCII lowercase hex digit. -/
def isHexDigit (c : Char) : Bool := c.isDigit || (97 ≤ c.toNat && c.toNat ≤ 102)

/-- `isValidUUID` (lines 125-128):
`/^[0-9a-f]{8}-[0-9a-f]{4}-[1-5][0-9a-f]{3}-[89ab][0-9a-f]{3}-[0-9a-f]{12}$/i`,
the `/i` flag modelled by lowercasing first. -/
def uuidOk (s : String) : Bool :=
  let cs := (lowerStr s).data
  match matchClass isHexDigit 8 cs with
  | some ('-' :: r1) =>
    match matchClass isHexDigit 4 r1 with
    | some ('-' :: c :: r2) =>
      ('1' ≤ c && c ≤ '5') &&
        match matchClass isHexDigit 3 r2 with
        | some ('-' :: v :: r3) =>
          (v == '8' || v == '9' || v == 'a' || v == 'b') &&
            match matchClass isHexDigit 3 r3 with
            | some ('-' :: r4) => matchClass isHexDigit 12 r4 == some []
            | _ => false
        | _ => false
    | _ => false
  | _ => false

/-- The message of CDM Rule 2. -/
def cdmLowercaseEmailMsg : String := "❌ CDM Compliance: emailAddress must be lowercase"

/-- CDM Rule 1 (lines 89-93): a truthy contactId must match the UUID shape. -/
def cdmIdViolations (j : Json) : List String :=
  match getField j "contactId" with
  | some v =>
    if truthy v && !uuidOk (jsToString v) then
      ["❌ CDM Compliance: contactId must be valid UUID format"]
    else []
  | none => []

/-- CDM Rule 2 (lines 95-99): a truthy emailAddress must equal its own
lowercase form. On the success path where this runs, Joi has established the
field is a string; the non-string arm is unreachable there. -/
def cdmEmailViolations (j : Json) : List String :=
  match getField j "emailAddress" with
  | some (.str s) => if s != "" && s != lowerStr s then [cdmLowercaseEmailMsg] else []
  | _ => []

/-- CDM Rule 3 for createdOn (lines 101-105). -/
def cdmCreatedViolations (j : Json) : List String :=
  match getField j "createdOn" with
  | some (.str s) =>
    if s != "" && !isValidISODate s then
      ["❌ CDM Compliance: createdOn must be valid ISO date"]
    else []
  | _ => []

/-- CDM Rule 3 for modifiedOn (lines 107-110). -/
def cdmModifiedViolations (j : Json) : List String :=
  match getField j "modifiedOn" with
  | some (.str s) =>
    if s != "" && !isValidISODate s then
      ["❌ CDM Compliance: modifiedOn must be valid ISO date"]
    else []
  | _ => []

/-- CDM Rule 4 (lines 112-120): `new Date(modifiedOn) < new Date(createdOn)`
(comparisons against an Invalid Date are false). -/
def cdmOrderViolations (j : Json) : List String :=
  match getField j "createdOn", getField j "modifiedOn" with
  | some (.str c), some (.str mo) =>
    if c != "" && mo != "" then
      match jsDateParse c, jsDateParse mo with
      | some tc, some tm =>
        if tm < tc then ["❌ CDM Compliance: modifiedOn cannot be before createdOn"] else []
      | _, _ => []
    else []
  | _, _ => []

/-- `validateCDMCompliance` (lines 86-123): all four rules, not short-circuited. -/
def cdmViolations (j : Json) : List String :=
  cdmIdViolations j ++ cdmEmailViolations j ++ cdmCreatedViolations j ++
    cdmModifiedViolations j ++ cdmOrderViolations j

/-- `validateFile` (lines 49-84): Joi errors make the file invalid without
running the CDM checks; otherwise the CDM checks decide, and the reported
violations are the corresponding messages. -/
def validateContactFile (j : Json) : Bool × List Violation :=
  let je := joiContactErrors j
  if je.isEmpty then
    let cv := cdmViolations j
    (cv.isEmpty, cv.map Violation.cdm)
  else (false, je.map Violation.joi)

theorem char_toNat_inj {a b : Char} (h : a.toNat = b.toNat) : a = b := by
  cases a
  cases b
  simp only [Char.toNat] at h
  congr 1
  exact UInt32.toNat.inj h

theorem char_ofNat_toNat {n : Nat} (h1 : 65 ≤ n) (h2 : n ≤ 122) : (Char.ofNat n).toNat = n := by
  have hv : n.isValidChar := Or.inl (by omega)
  simp only [Char.ofNat, hv, dif_pos]
  simp only [Char.ofNatAux, Char.toNat, UInt32.toNat, BitVec.toNat_ofNatLt]

theorem toLower_eq_of_not_upper {c : Char} (h : isUpperAscii c = false) : c.toLower = c := by
  have hb : ¬ (65 ≤ c.toNat ∧ c.toNat ≤ 90) := by
    simp only [isUpperAscii, Bool.and_eq_false_iff] at h
    rcases h with h | h <;> intro hc <;> simp at h <;> omega
  unfold Char.toLower
  exact if_neg (by push_neg at hb ⊢; intro hg; exact hb (by omega))

theorem toLower_ne_of_upper {c : Char} (h : isUpperAscii c = true) : c.toLower ≠ c := by
  have hb : 65 ≤ c.toNat ∧ c.toNat ≤ 90 := by
    simp only [isUpperAscii, Bool.and_eq_true, decide_eq_true_eq] at h
    exact h
  unfold Char.toLower
  rw [if_pos (by omega)]
  intro heq
  have hn := congrArg Char.toNat heq
  rw [char_ofNat_toNat (by omega) (by omega)] at hn
  omega

theorem map_toLower_fix {l : List Char} (h : l.map Char.toLower = l) :
    ∀ c ∈ l, Char.toLower c = c := by
  induction l with
  | nil => intro c hc; cases hc
  | cons a t ih =>
    simp only [List.map_cons, List.cons.injEq] at h
    intro c hc
    rcases List.mem_cons.mp hc with rfl | hct
    · exact h.1
    · exact ih h.2 c hct

theorem lowerStr_ne_of_hasUpper {s : String} (h : s.data.any isUpperAscii = true) :
    lowerStr s ≠ s := by
  intro heq
  have hd : s.data.map Char.toLower = s.data := congrArg String.data heq
  obtain ⟨c, hc, hup⟩ := List.any_eq_true.mp h
  exact toLower_ne_of_upper hup (map_toLower_fix hd c hc)

theorem validateContactFile_fst_false_of_joi {j : Json} (hje : joiContactErrors j ≠ []) :
    (validateContactFile j).1 = false := by
  unfold validateContactFile
  cases hie : (joiContactErrors j).isEmpty
  · simp [hie]
  · exact absurd (List.isEmpty_iff.mp hie) hje

/-- C8: every contact record with no `contactId` field is reported invalid:
the schema default for `contactId` calls `uuidv4`, a function never imported
or defined in the script, so Joi records an `any.default` error instead of
generating an identifier, and the file never passes. -/
theorem missing_contactId_never_passes (j : Json) (hcid : getField j "contactId" = none) :
    (validateContactFile j).1 = false ∧
    (∀ fields, j = .obj fields →
      Violation.joi (.defaultThrew "contactId") ∈ (validateContactFile j).2) := by
  cases j with
  | obj fields =>
    have hc : checkContactId (getField (.obj fields) "contactId") =
        [.defaultThrew "contactId"] := by rw [hcid]; rfl
    have hje : joiContactErrors (.obj fields) =
        .defaultThrew "contactId" ::
          (checkFullName (getField (.obj fields) "fullName") ++
            checkEmailAddress (getField (.obj fields) "emailAddress") ++
            checkPhoneNumber (getField (.obj fields) "phoneNumber") ++
            checkOptMaxString "company" 255 (getField (.obj fields) "company") ++
            checkOptMaxString "addressLine1" 255 (getField (.obj fields) "addressLine1") ++
            checkOptMaxString "addressLine2" 255 (getField (.obj fields) "addressLine2") ++
            checkOptMaxString "city" 100 (getField (.obj fields) "city") ++
            checkOptMaxString "stateProvince" 100 (getField (.obj fields) "stateProvince") ++
            checkOptMaxString "postalCode" 20 (getField (.obj fields) "postalCode") ++
            checkOptMaxString "country" 100 (getField (.obj fields) "country") ++
            checkOptMaxString "jobTitle" 255 (getField (.obj fields) "jobTitle") ++
            checkOptMaxString "department" 255 (getField (.obj fields) "department") ++
            checkPreferredContactMethod (getField (.obj fields) "preferredContactMethod") ++
            checkIsActive (getField (.obj fields) "isActive") ++
            checkOptMaxString "notes" 1000 (getField (.obj fields) "notes") ++
            checkCustomFields (getField (.obj fields) "customFields") ++
            checkOptMaxString "createdOn" 255 (getField (.obj fields) "createdOn") ++
            checkOptMaxString "modifiedOn" 255 (getField (.obj fields) "modifiedOn") ++
            checkDefaultedString "createdBy" (getField (.obj fields) "createdBy") ++
            checkDefaultedString "modifiedBy" (getField (.obj fields) "modifiedBy") ++
            checkUnknownKeys fields) := by
      unfold joiContactErrors
      rw [hc]
      simp [List.append_assoc]
    constructor
    · exact validateContactFile_fst_false_of_joi (by rw [hje]; exact List.cons_ne_nil _ _)
    · intro fields2 _
      unfold validateContactFile
      rw [hje]
      simp
  | null =>
    exact ⟨validateContactFile_fst_false_of_joi (by simp [joiContactErrors]),
      fun fields heq => Json.noConfusion heq⟩
  | bool b =>
    exact ⟨validateContactFile_fst_false_of_joi (by simp [joiContactErrors]),
      fun fields heq => Json.noConfusion heq⟩
  | num n =>
    exact ⟨validateContactFile_fst_false_of_joi (by simp [joiContactErrors]),
      fun fields heq => Json.noConfusion heq⟩
  | str s =>
    exact ⟨validateContactFile_fst_false_of_joi (by simp [joiContactErrors]),
      fun fields heq => Json.noConfusion heq⟩
  | arr items =>
    exact ⟨validateContactFile_fst_false_of_joi (by simp [joiContactErrors]),
      fun fields heq => Json.noConfusion heq⟩

/-- The contact of the C8 witness: a record valid in every other respect,
only `contactId` is absent. -/
def c8Contact : Json :=
  .obj [("fullName", .str "John Doe"), ("emailAddress", .str "john.doe@example.com")]

/-- Witness for C8. -/
theorem missing_contactId_never_passes_witness :
    getField c8Contact "contactId" = none ∧
    (validateContactFile c8Contact).1 = false ∧
    Violation.joi (.defaultThrew "contactId") ∈ (validateContactFile c8Contact).2 := by
  refine ⟨rfl, ?_, ?_⟩
  · exact (missing_contactId_never_passes c8Contact rfl).1
  · exact (missing_contactId_never_passes c8Contact rfl).2 _ rfl

/-- C6 (amended): a contact whose `emailAddress` contains an ASCII uppercase
letter never passes validation; when the record passes the structural (Joi)
stage, the reported violations include the CDM lowercase-email message. -/
theorem uppercase_email_fails_validation (j : Json) (s : String)
    (hs : getField j "emailAddress" = some (.str s))
    (hup : s.data.any isUpperAscii = true) :
    (validateContactFile j).1 = false ∧
    (joiContactErrors j = [] →
      Violation.cdm cdmLowercaseEmailMsg ∈ (validateContactFile j).2) := by
  have hlne : lowerStr s ≠ s := lowerStr_ne_of_hasUpper hup
  have hsne : s ≠ "" := by
    rintro rfl
    exact absurd hup (by decide)
  have hcond : (s != "" && s != lowerStr s) = true := by
    rw [Bool.and_eq_true]
    exact ⟨bne_iff_ne.mpr hsne, bne_iff_ne.mpr (Ne.symm hlne)⟩
  have hr2 : cdmEmailViolations j = [cdmLowercaseEmailMsg] := by
    unfold cdmEmailViolations
    rw [hs]
    simp [hcond]
  by_cases hje : joiContactErrors j = []
  · have hcv : cdmLowercaseEmailMsg ∈ cdmViolations j := by
      unfold cdmViolations
      rw [hr2]
      simp
    constructor
    · unfold validateContactFile
      rw [hje]
      simp only [List.isEmpty_nil, if_true]
      cases hcve : (cdmViolations j).isEmpty
      · rfl
      · exact absurd (List.isEmpty_iff.mp hcve) (List.ne_nil_of_mem hcv)
    · intro _
      unfold validateContactFile
      rw [hje]
      simp only [List.isEmpty_nil, if_true]
      exact List.mem_map_of_mem _ hcv
  · exact ⟨validateContactFile_fst_false_of_joi hje, fun h => absurd h hje⟩

/-- The C6 counterexample contact: uppercase email, but the record already
fails the structural stage (no `fullName`, and the `contactId` default
throws), so the lowercase-email violation is never reported. -/
def c6Contact : Json := .obj [("emailAddress", .str "John.Doe@Example.com")]

/-- C6 counterexample: this record has an uppercase letter in its email and
fails validation, yet its reported violations do not include the
CDM lowercase-email violation. -/
theorem uppercase_email_counterexample :
    getField c6Contact "emailAddress" = some (.str "John.Doe@Example.com") ∧
    "John.Doe@Example.com".data.any isUpperAscii = true ∧
    (validateContactFile c6Contact).1 = false ∧
    Violation.cdm cdmLowercaseEmailMsg ∉ (validateContactFile c6Contact).2 := by
  exact ⟨rfl, by decide, by decide, by decide⟩

/-- The C6 witness contact: structurally valid, email has uppercase letters. -/
def c6ValidContact : Json :=
  .obj [("contactId", .str "123e4567-e89b-12d3-a456-426614174000"),
        ("fullName", .str "John Doe"),
        ("emailAddress", .str "John.Doe@example.com")]

/-- Witness for the amended C6. -/
theorem uppercase_email_fails_validation_witness :
    getField c6ValidContact "emailAddress" = some (.str "John.Doe@example.com") ∧
    "John.Doe@example.com".data.any isUpperAscii = true ∧
    joiContactErrors c6ValidContact = [] ∧
    (validateContactFile c6ValidContact).1 = false ∧
    Violation.cdm cdmLowercaseEmailMsg ∈ (validateContactFile c6ValidContact).2 := by
  refine ⟨rfl, by decide, by decide, ?_, ?_⟩
  · exact (uppercase_email_fails_validation c6ValidContact _ rfl (by decide)).1
  · exact (uppercase_email_fails_validation c6ValidContact _ rfl (by decide)).2 (by decide)

/-! ## Business rules validator

`validate-business-rules.js`: `validateBusinessRules` (lines 34-182) applies
ten rules; rule 10 keeps a duplicate-email cache of flag files under the
`validation-cache` directory, created on demand and removed by `cleanup()`
at the start and end of every `main` run. The cache is modelled as
`Option (List String)`: `none` is an absent directory, `some keys` the flag
file names present. A contact whose `emailAddress`/`fullName` is a truthy
non-string, whose `company` is a truthy non-string while `emailAddress` is
also truthy (rule 7 computes `contact.company.toLowerCase()`, line 103), or
whose `tags` array holds a non-string, makes the source throw inside the
rules (e.g. at `.split`/`.toLowerCase`), caught by `validateFile` as a
per-file processing error; this is modelled by the `brWellTyped` guard
(every such throw happens before rule 10, so the cache is unchanged either
way).
Regular expressions are modelled by a small matcher with backtracking
(`RxM`, a set-of-remainders semantics).
-/

/-- ASCII alphanumeric, by code point (the class `[a-zA-Z0-9]`). -/
def isAsciiAlnum (c : Char) : Bool :=
  (48 ≤ c.toNat && c.toNat ≤ 57) || (65 ≤ c.toNat && c.toNat ≤ 90) ||
    (97 ≤ c.toNat && c.toNat ≤ 122)

/-- One character of the rule-10 cache key:
`emailAddress.replace(/[^a-zA-Z0-9]/g, "_")` (line 167). -/
def emailKeyChar (c : Char) : Char := if isAsciiAlnum c then c else '_'

/-- The rule-10 cache key of an email address (case-preserving). -/
def emailKey (s : String) : String := ⟨s.data.map emailKeyChar⟩

/-- A backtracking matcher: the set of possible remainders after matching. -/
def RxM : Type := List Char → List (List Char)

/-- Match one character satisfying `p`. -/
def rxCharP (p : Char → Bool) : RxM := fun cs =>
  match cs with
  | c :: rest => if p c then [rest] else []
  | [] => []

/-- Sequencing. -/
def rxSeq (a b : RxM) : RxM := fun cs => (a cs).flatMap b

/-- `X?`: match zero or one occurrence. -/
def rxOpt (a : RxM) : RxM := fun cs => cs :: a cs

/-- `X{n}`: match exactly `n` occurrences. -/
def rxCount (a : RxM) : Nat → RxM
  | 0 => fun cs => [cs]
  | n + 1 => rxSeq a (rxCount a n)

/-- A literal character. -/
def rxLit (c : Char) : RxM := rxCharP (fun x => x == c)

/-- Anchored acceptance (`^...$`). -/
def rxAccepts (a : RxM) (s : String) : Bool := (a s.data).any (fun rem => rem == [])

/-- The class `[\-\s]` of the phone patterns. -/
def dashOrSpace (c : Char) : Bool := c == '-' || jsWhitespace c

/-- A decimal digit by code point. -/
def isDigitAscii (c : Char) : Bool := 48 ≤ c.toNat && c.toNat ≤ 57

/-- `/^\+?1?[\-\s]?\(?[0-9]{3}\)?[\-\s]?[0-9]{3}[\-\s]?[0-9]{4}$/` (US and CA). -/
def phoneUS : RxM :=
  rxSeq (rxOpt (rxLit '+')) (rxSeq (rxOpt (rxLit '1')) (rxSeq (rxOpt (rxCharP dashOrSpace))
    (rxSeq (rxOpt (rxLit '(')) (rxSeq (rxCount (rxCharP isDigitAscii) 3)
    (rxSeq (rxOpt (rxLit ')')) (rxSeq (rxOpt (rxCharP dashOrSpace))
    (rxSeq (rxCount (rxCharP isDigitAscii) 3) (rxSeq (rxOpt (rxCharP dashOrSpace))
    (rxCount (rxCharP isDigitAscii) 4)))))))))

/-- `/^\+?44[\-\s]?[0-9]{4}[\-\s]?[0-9]{6}$/`. -/
def phoneUK : RxM :=
  rxSeq (rxOpt (rxLit '+')) (rxSeq (rxLit '4') (rxSeq (rxLit '4')
    (rxSeq (rxOpt (rxCharP dashOrSpace)) (rxSeq (rxCount (rxCharP isDigitAscii) 4)
    (rxSeq (rxOpt (rxCharP dashOrSpace)) (rxCount (rxCharP isDigitAscii) 6))))))

/-- `/^\+?33[\-\s]?[0-9]{1}[\-\s]?[0-9]{8}$/`. -/
def phoneFR : RxM :=
  rxSeq (rxOpt (rxLit '+')) (rxSeq (rxLit '3') (rxSeq (rxLit '3')
    (rxSeq (rxOpt (rxCharP dashOrSpace)) (rxSeq (rxCount (rxCharP isDigitAscii) 1)
    (rxSeq (rxOpt (rxCharP dashOrSpace)) (rxCount (rxCharP isDigitAscii) 8))))))

/-- `/^\+?49[\-\s]?[0-9]{3,4}[\-\s]?[0-9]{7,8}$/`. -/
def phoneDE : RxM :=
  rxSeq (rxOpt (rxLit '+')) (rxSeq (rxLit '4') (rxSeq (rxLit '9')
    (rxSeq (rxOpt (rxCharP dashOrSpace)) (rxSeq (rxCount (rxCharP isDigitAscii) 3)
    (rxSeq (rxOpt (rxCharP isDigitAscii)) (rxSeq (rxOpt (rxCharP dashOrSpace))
    (rxSeq (rxCount (rxCharP isDigitAscii) 7) (rxOpt (rxCharP isDigitAscii)))))))))

/-- `/^\+?212[0-9]{9}$/`. -/
def phoneMA : RxM :=
  rxSeq (rxOpt (rxLit '+')) (rxSeq (rxLit '2') (rxSeq (rxLit '1')
    (rxSeq (rxLit '2') (rxCount (rxCharP isDigitAscii) 9))))

/-- `BUSINESS_RULES.phoneNumberPatterns` (keyed by country code). -/
def phonePatternFor (country : String) : Option RxM :=
  if country == "US" then some phoneUS
  else if country == "CA" then some phoneUS
  else if country == "UK" then some phoneUK
  else if country == "FR" then some phoneFR
  else if country == "DE" then some phoneDE
  else if country == "MA" then some phoneMA
  else none

/-- `BUSINESS_RULES.blockedEmailDomains`. -/
def blockedEmailDomains : List String :=
  ["tempmail.com", "10minutemail.com", "throwaway.email",
   "guerrillamail.com", "mailinator.com", "yopmail.com"]

/-- `BUSINESS_RULES.allowedCountries`. -/
def allowedCountries : List String := ["US", "CA", "UK", "FR", "DE", "AU", "JP", "MA"]

/-- Rule 1 (lines 38-45): blocked email domain. The non-string arm is
unreachable under the well-typed guard (`.split` would throw). -/
def rule1Violations (c : Json) : List String :=
  match getField c "emailAddress" with
  | some (.str s) =>
    if s != "" then
      match (splitOnChar '@' s.data).get? 1 with
      | some d =>
        let dl : String := ⟨d.map Char.toLower⟩
        if blockedEmailDomains.contains dl then ["Blocked email domain: " ++ dl] else []
      | none => []
    else []
  | _ => []

/-- Rule 2 (lines 47-56): phone format by country; the pattern table is keyed
by the stringified country, and the test stringifies the phone value. -/
def rule2Violations (c : Json) : List String :=
  match getField c "phoneNumber", getField c "country" with
  | some pv, some cv =>
    if truthy pv && truthy cv then
      match phonePatternFor (jsToString cv) with
      | some pat =>
        if rxAccepts pat (jsToString pv) then []
        else ["Invalid phone format for " ++ jsToString cv ++ ": " ++ jsToString pv]
      | none => []
    else []
  | _, _ => []

/-- Rule 3 (lines 58-62): job title requires company. -/
def rule3Violations (c : Json) : List String :=
  if truthyField c "jobTitle" && !truthyField c "company" then
    ["Job title requires company name for business contacts"]
  else []

/-- Rule 4 (lines 64-68): US contacts with a city need a state/province. -/
def rule4Violations (c : Json) : List String :=
  if (match getField c "country" with
      | some (.str "US") => true
      | _ => false) &&
      truthyField c "city" && !truthyField c "stateProvince" then
    ["US contacts with city must specify state/province"]
  else []

/-- Rule 5 (lines 70-77): country allow-list (`includes` compares with
strict equality, so a non-string country never matches). -/
def rule5Violations (c : Json) : List String :=
  match getField c "country" with
  | some v =>
    if truthy v &&
        !(match v with
          | .str s => allowedCountries.contains s
          | _ => false) then
      ["Country not in allowed list: " ++ jsToString v]
    else []
  | none => []

/-- Predicate split on a character class, preserving JavaScript `split`
piece structure. -/
def splitOnPred (p : Char → Bool) : List Char → List (List Char)
  | [] => [[]]
  | c :: cs =>
    let r := splitOnPred p cs
    if p c then [] :: r
    else
      match r with
      | [] => [[c]]
      | h :: t => (c :: h) :: t

/-- JavaScript `String.prototype.trim` (ASCII whitespace and NBSP). -/
def jsTrim (s : String) : String :=
  ⟨((s.data.dropWhile jsWhitespace).reverse.dropWhile jsWhitespace).reverse⟩

/-- `fullName.trim().split(/\s+/).length`: the empty string splits to `[""]`
(length 1), a non-empty trimmed string to its whitespace-separated tokens. -/
def wsSplitCount (s : String) : Nat :=
  let t := (jsTrim s).data
  if t.isEmpty then 1
  else ((splitOnPred jsWhitespace t).filter (fun x => !x.isEmpty)).length

/-- Whether the raw email includes `"test"` (case-sensitive;
`emailAddress?.includes("test")` is undefined — falsy — when the field is
absent or null). -/
def emailIncludesTest (c : Json) : Bool :=
  match getField c "emailAddress" with
  | some (.str s) => strContainsSub s "test"
  | _ => false

/-- Rule 6 (lines 79-98): test-data heuristic and minimum name parts. The
non-string arm is unreachable under the guard (`.toLowerCase` would throw). -/
def rule6Violations (c : Json) : List String :=
  match getField c "fullName" with
  | some (.str s) =>
    if s != "" then
      (if strContainsSub (lowerStr s) "test" && !emailIncludesTest c then
        ["Potential test data detected (name contains \"test\" but email does not)"]
      else []) ++
      (if wsSplitCount s < 2 then
        ["Full name should include both first and last name"]
      else [])
    else []
  | _ => []

/-- Rule 7 (lines 100-117) only logs informationally and never records a
violation. -/
def rule7Violations (_c : Json) : List String := []

/-- The rule-8 tag vocabulary. -/
def validTags : List String :=
  ["customer", "prospect", "partner", "vendor", "employee", "consultant"]

/-- Rule 8 (lines 119-137): tags outside the vocabulary (case-insensitive)
and longer than 20 characters. Non-string tags are unreachable under the
guard (`.toLowerCase` would throw). -/
def rule8Violations (c : Json) : List String :=
  match getField c "tags" with
  | some (.arr items) =>
    let strTags := items.map (fun t =>
      match t with
      | .str s => s
      | _ => "")
    let invalid := strTags.filter (fun s =>
      !(validTags.contains (lowerStr s)) && 20 < s.length)
    if invalid.isEmpty then []
    else ["Invalid or overly long tags: " ++ String.intercalate ", " invalid]
  | _ => []

/-- A word character for `\b` (the class `[A-Za-z0-9_]`). -/
def wordChar (c : Char) : Bool := isAsciiAlnum c || c == '_'

/-- Whether `m` matches at this position with `\b` on both sides (the matched
text of the sensitive patterns starts and ends with digits). -/
def boundaryMatchHere (m : RxM) (prev : Option Char) (cs : List Char) : Bool :=
  (match prev with
   | some p => !wordChar p
   | none => true) &&
    (m cs).any (fun rem =>
      match rem with
      | [] => true
      | c :: _ => !wordChar c)

/-- Unanchored search for a `\b...\b` pattern. -/
def searchWithBoundaries (m : RxM) : Option Char → List Char → Bool
  | prev, [] => boundaryMatchHere m prev []
  | prev, c :: cs => boundaryMatchHere m prev (c :: cs) || searchWithBoundaries m (some c) cs

/-- `/\b\d{3}-\d{2}-\d{4}\b/` (SSN shape). -/
def ssnRx : RxM :=
  rxSeq (rxCount (rxCharP isDigitAscii) 3) (rxSeq (rxLit '-')
    (rxSeq (rxCount (rxCharP isDigitAscii) 2) (rxSeq (rxLit '-')
    (rxCount (rxCharP isDigitAscii) 4))))

/-- `/\b\d{4}[\s-]?\d{4}[\s-]?\d{4}[\s-]?\d{4}\b/` (credit-card shape). -/
def ccRx : RxM :=
  rxSeq (rxCount (rxCharP isDigitAscii) 4) (rxSeq (rxOpt (rxCharP dashOrSpace))
    (rxSeq (rxCount (rxCharP isDigitAscii) 4) (rxSeq (rxOpt (rxCharP dashOrSpace))
    (rxSeq (rxCount (rxCharP isDigitAscii) 4) (rxSeq (rxOpt (rxCharP dashOrSpace))
    (rxCount (rxCharP isDigitAscii) 4))))))

/-- Rule 9 (lines 139-159): sensitive content in notes; `test` stringifies a
non-string notes value; the loop breaks at the first matching pattern, so at
most one violation is recorded. -/
def rule9Violations (c : Json) : List String :=
  match getField c "notes" with
  | some v =>
    if truthy v then
      let ns := jsToString v
      if searchWithBoundaries ssnRx none ns.data ||
          searchWithBoundaries ccRx none ns.data ||
          strContainsSub (lowerStr ns) "password" ||
          strContainsSub (lowerStr ns) "ssn" ||
          strContainsSub (lowerStr ns) "social security" then
        ["Notes field contains potentially sensitive information"]
      else []
    else []
  | none => []

/-- Rules 1-9, in source order (rule 7 contributes nothing). -/
def brRules1to9 (c : Json) : List String :=
  rule1Violations c ++ rule2Violations c ++ rule3Violations c ++ rule4Violations c ++
    rule5Violations c ++ rule6Violations c ++ rule7Violations c ++ rule8Violations c ++
    rule9Violations c

/-- Rule 10 (lines 161-179): duplicate-email check against the flag-file
cache; on a miss the directory is created (if needed) and the flag written.
The non-string arm is unreachable under the guard (`.replace` would throw). -/
def rule10 (c : Json) (cache : Option (List String)) :
    List String × Option (List String) :=
  match getField c "emailAddress" with
  | some (.str s) =>
    if s != "" then
      let key := emailKey s
      match cache with
      | some keys =>
        if keys.contains key then
          (["Duplicate email address detected: " ++ s], some keys)
        else ([], some (key :: keys))
      | none => ([], some [key])
    else ([], cache)
  | _ => ([], cache)

/-- The well-typed guard (see the section comment): truthy
`emailAddress`/`fullName` values must be strings, a truthy `company`
alongside a truthy `emailAddress` must be a string (rule 7,
`contact.company.toLowerCase()` under the `emailAddress && company` guard at
lines 101-103, runs before rule 10), and `tags` arrays must hold strings;
otherwise the source throws and `validateFile` reports a processing error
for the file without reaching rule 10. -/
def brWellTyped (c : Json) : Bool :=
  (match getField c "emailAddress" with
   | some v => !truthy v ||
      (match v with
       | .str _ => true
       | _ => false)
   | none => true) &&
  (match getField c "fullName" with
   | some v => !truthy v ||
      (match v with
       | .str _ => true
       | _ => false)
   | none => true) &&
  (match getField c "emailAddress", getField c "company" with
   | some ev, some cv => !truthy ev || !truthy cv ||
      (match cv with
       | .str _ => true
       | _ => false)
   | _, _ => true) &&
  (match getField c "tags" with
   | some (.arr items) => items.all (fun t =>
      match t with
      | .str _ => true
      | _ => false)
   | _ => true)

/-- Per-file processing of the business-rules validator (`validateFile`,
lines 184-211): a parse failure (`none`) or a mid-rule throw yields a
processing-error message and leaves the cache unchanged; otherwise all ten
rules run, rule 10 last. -/
def brValidateFile (content : Option Json) (cache : Option (List String)) :
    List String × Option (List String) :=
  match content with
  | none => (["‚ùå Invalid JSON"], cache)
  | some c =>
    if brWellTyped c then
      let r10 := rule10 c cache
      (brRules1to9 c ++ r10.1, r10.2)
    else (["‚ùå Error processing"], cache)

/-- A run over the parsed file contents, threading the cache. -/
def brRun : List (Option Json) → Option (List String) →
    List (List String) × Option (List String)
  | [], cache => ([], cache)
  | f :: rest, cache =>
    let step := brValidateFile f cache
    let tail := brRun rest step.2
    (step.1 :: tail.1, tail.2)

/-- `main` (lines 242-314): `cleanup()` removes the cache directory first;
the empty run exits 0 at once; otherwise the files are validated, the log is
written and `cleanup()` runs again before either exit path. Returns the exit
code and the final cache state. -/
def brMain (files : List (Option Json)) : Nat × Option (List String) :=
  if files.isEmpty then (0, none)
  else
    let results := (brRun files none).1
    (if results.all (fun vs => vs.isEmpty) then 0 else 1, none)

/-- First character of a string. -/
def strHead (s : String) : Option Char := s.data.head?

theorem strHead_append_ne_nil {lit rest : String} (h : lit.data ≠ []) :
    strHead (lit ++ rest) = strHead lit := by
  unfold strHead
  rw [String.data_append]
  cases hd : lit.data with
  | nil => exact absurd hd h
  | cons a as => simp

theorem strData_ne_nil_append {a : String} (b : String) (h : a.data ≠ []) :
    (a ++ b).data ≠ [] := by
  rw [String.data_append]
  cases hd : a.data with
  | nil => exact absurd hd h
  | cons x xs => simp

theorem rule1_head_ne_dup {c : Json} {v : String} (h : v ∈ rule1Violations c) :
    strHead v ≠ some 'D' := by
  unfold rule1Violations at h
  repeat' (first | split at h | dsimp only at h)
  all_goals
    first
      | exact absurd h (List.not_mem_nil _)
      | (rw [List.mem_singleton] at h
         subst h
         first
           | decide
           | (rw [strHead_append_ne_nil (by decide)]; decide))

theorem rule2_head_ne_dup {c : Json} {v : String} (h : v ∈ rule2Violations c) :
    strHead v ≠ some 'D' := by
  unfold rule2Violations at h
  repeat' (first | split at h | dsimp only at h)
  all_goals
    first
      | exact absurd h (List.not_mem_nil _)
      | (rw [List.mem_singleton] at h
         subst h
         rw [strHead_append_ne_nil
             (strData_ne_nil_append _ (strData_ne_nil_append _ (by decide))),
           strHead_append_ne_nil (strData_ne_nil_append _ (by decide)),
           strHead_append_ne_nil (by decide)]
         decide)

theorem rule3_head_ne_dup {c : Json} {v : String} (h : v ∈ rule3Violations c) :
    strHead v ≠ some 'D' := by
  unfold rule3Violations at h
  repeat' (first | split at h | dsimp only at h)
  all_goals
    first
      | exact absurd h (List.not_mem_nil _)
      | (rw [List.mem_singleton] at h
         subst h
         decide)

theorem rule4_head_ne_dup {c : Json} {v : String} (h : v ∈ rule4Violations c) :
    strHead v ≠ some 'D' := by
  unfold rule4Violations at h
  repeat' (first | split at h | dsimp only at h)
  all_goals
    first
      | exact absurd h (List.not_mem_nil _)
      | (rw [List.mem_singleton] at h
         subst h
         decide)

theorem rule5_head_ne_dup {c : Json} {v : String} (h : v ∈ rule5Violations c) :
    strHead v ≠ some 'D' := by
  unfold rule5Violations at h
  repeat' (first | split at h | dsimp only at h)
  all_goals
    first
      | exact absurd h (List.not_mem_nil _)
      | (rw [List.mem_singleton] at h
         subst h
         first
           | decide
           | (rw [strHead_append_ne_nil (by decide)]; decide))

theorem rule6_head_ne_dup {c : Json} {v : String} (h : v ∈ rule6Violations c) :
    strHead v ≠ some 'D' := by
  unfold rule6Violations at h
  repeat' (first | split at h | dsimp only at h)
  all_goals
    first
      | exact absurd h (List.not_mem_nil _)
      | (rw [List.mem_append] at h
         rcases h with h | h <;>
           first
             | exact absurd h (List.not_mem_nil _)
             | (rw [List.mem_singleton] at h
                subst h
                decide))

theorem rule8_head_ne_dup {c : Json} {v : String} (h : v ∈ rule8Violations c) :
    strHead v ≠ some 'D' := by
  unfold rule8Violations at h
  repeat' (first | split at h | dsimp only at h)
  all_goals
    first
      | exact absurd h (List.not_mem_nil _)
      | (rw [List.mem_singleton] at h
         subst h
         rw [strHead_append_ne_nil (by decide)]
         decide)

theorem rule9_head_ne_dup {c : Json} {v : String} (h : v ∈ rule9Violations c) :
    strHead v ≠ some 'D' := by
  unfold rule9Violations at h
  repeat' (first | split at h | dsimp only at h)
  all_goals
    first
      | exact absurd h (List.not_mem_nil _)
      | (rw [List.mem_singleton] at h
         subst h
         decide)

theorem brRules1to9_head_ne_dup {c : Json} {v : String} (h : v ∈ brRules1to9 c) :
    strHead v ≠ some 'D' := by
  unfold brRules1to9 at h
  simp only [List.mem_append] at h
  rcases h with ((((((((h | h) | h) | h) | h) | h) | h) | h) | h)
  · exact rule1_head_ne_dup h
  · exact rule2_head_ne_dup h
  · exact rule3_head_ne_dup h
  · exact rule4_head_ne_dup h
  · exact rule5_head_ne_dup h
  · exact rule6_head_ne_dup h
  · exact absurd h (List.not_mem_nil _)
  · exact rule8_head_ne_dup h
  · exact rule9_head_ne_dup h

theorem strHead_dupMsg (e : String) :
    strHead ("Duplicate email address detected: " ++ e) = some 'D' := by
  rw [strHead_append_ne_nil (by decide)]
  decide

theorem rule10_none_no_violation (c : Json) : (rule10 c none).1 = [] := by
  unfold rule10
  cases getField c "emailAddress" with
  | none => rfl
  | some v =>
    cases v with
    | str s =>
      by_cases hs : (s != "") = true
      · simp [hs]
      · rw [Bool.not_eq_true] at hs
        simp [hs]
    | null => rfl
    | bool b => rfl
    | num n => rfl
    | arr items => rfl
    | obj fields => rfl

/-- A single-file business-rules run never records a duplicate-email
violation: rules 1-9 emit no message of that form and rule 10 starts from an
empty cache. -/
theorem single_file_no_duplicate (f : Option Json) (e : String) :
    ("Duplicate email address detected: " ++ e) ∉ (brValidateFile f none).1 := by
  intro h
  have hD := strHead_dupMsg e
  match f with
  | none =>
    simp only [brValidateFile, List.mem_singleton] at h
    have := congrArg strHead h
    rw [hD] at this
    exact absurd this (by decide)
  | some c =>
    simp only [brValidateFile] at h
    by_cases hw : brWellTyped c = true
    · rw [hw] at h
      simp only [if_true] at h
      rw [rule10_none_no_violation, List.append_nil] at h
      exact brRules1to9_head_ne_dup h hD
    · rw [Bool.not_eq_true] at hw
      rw [hw] at h
      simp only [Bool.false_eq_true, if_false, List.mem_singleton] at h
      have := congrArg strHead h
      rw [hD] at this
      exact absurd this (by decide)

theorem rule10_insert (c : Json) (e : String)
    (he : getField c "emailAddress" = some (.str e)) (hne : e ≠ "") :
    rule10 c none = ([], some [emailKey e]) := by
  unfold rule10
  rw [he]
  simp [bne_iff_ne.mpr hne]

theorem rule10_dup (c : Json) (e : String) (keys : List String)
    (he : getField c "emailAddress" = some (.str e)) (hne : e ≠ "")
    (hmem : keys.contains (emailKey e) = true) :
    rule10 c (some keys) = (["Duplicate email address detected: " ++ e], some keys) := by
  unfold rule10
  rw [he]
  simp [bne_iff_ne.mpr hne, hmem]
  simpa using hmem

theorem rule10_miss (c : Json) (e : String) (keys : List String)
    (he : getField c "emailAddress" = some (.str e)) (hne : e ≠ "")
    (hmiss : keys.contains (emailKey e) = false) :
    rule10 c (some keys) = ([], some (emailKey e :: keys)) := by
  unfold rule10
  rw [he]
  simp [bne_iff_ne.mpr hne, hmiss]
  simpa using hmiss

theorem brValidateFile_wellTyped (c : Json) (cache : Option (List String))
    (hw : brWellTyped c = true) :
    brValidateFile (some c) cache =
      (brRules1to9 c ++ (rule10 c cache).1, (rule10 c cache).2) := by
  simp only [brValidateFile, hw, if_true]

/-- C4: within one business-rules run, two contact files with the same
normalized email make the second invalid with a duplicate-email violation; a
single-file run records no duplicate violation; and after `main` ends —
success or failure — the validation-cache directory no longer exists. -/
theorem duplicate_email_rule (c1 c2 : Json) (e1 e2 : String)
    (h1 : getField c1 "emailAddress" = some (.str e1)) (hne1 : e1 ≠ "")
    (h2 : getField c2 "emailAddress" = some (.str e2)) (hne2 : e2 ≠ "")
    (hw1 : brWellTyped c1 = true) (hw2 : brWellTyped c2 = true)
    (hkey : emailKey e1 = emailKey e2) :
    (∃ vs1 vs2, (brRun [some c1, some c2] none).1 = [vs1, vs2] ∧
      ("Duplicate email address detected: " ++ e2) ∈ vs2 ∧ vs2 ≠ []) ∧
    (∀ (f : Option Json) (e : String),
      ("Duplicate email address detected: " ++ e) ∉ (brValidateFile f none).1) ∧
    (∀ files : List (Option Json), (brMain files).2 = none) := by
  refine ⟨?_, single_file_no_duplicate, ?_⟩
  · have hs1 : brValidateFile (some c1) none = (brRules1to9 c1, some [emailKey e1]) := by
      rw [brValidateFile_wellTyped c1 none hw1, rule10_insert c1 e1 h1 hne1]
      simp
    have hcontains : [emailKey e1].contains (emailKey e2) = true := by
      rw [hkey]
      simp
    have hs2 : brValidateFile (some c2) (some [emailKey e1]) =
        (brRules1to9 c2 ++ ["Duplicate email address detected: " ++ e2],
          some [emailKey e1]) := by
      rw [brValidateFile_wellTyped c2 _ hw2, rule10_dup c2 e2 _ h2 hne2 hcontains]
    refine ⟨brRules1to9 c1,
      brRules1to9 c2 ++ ["Duplicate email address detected: " ++ e2], ?_, ?_, ?_⟩
    · simp [brRun, hs1, hs2]
    · simp
    · simp
  · intro files
    unfold brMain
    split <;> rfl

/-- Witness for C4 at two identical concrete contacts. -/
theorem duplicate_email_rule_witness :
    getField (.obj [("emailAddress", Json.str "dup@x.com")]) "emailAddress" =
      some (.str "dup@x.com") ∧
    (∃ vs1 vs2,
      (brRun [some (.obj [("emailAddress", Json.str "dup@x.com")]),
              some (.obj [("emailAddress", Json.str "dup@x.com")])] none).1 = [vs1, vs2] ∧
      ("Duplicate email address detected: " ++ "dup@x.com") ∈ vs2 ∧ vs2 ≠ []) := by
  refine ⟨rfl, ?_⟩
  exact (duplicate_email_rule (.obj [("emailAddress", Json.str "dup@x.com")])
    (.obj [("emailAddress", Json.str "dup@x.com")]) "dup@x.com" "dup@x.com" rfl (by decide)
    rfl (by decide) (by decide) (by decide) rfl).1

theorem isUpperAscii_isAsciiAlnum {c : Char} (h : isUpperAscii c = true) :
    isAsciiAlnum c = true := by
  simp only [isUpperAscii, Bool.and_eq_true, decide_eq_true_eq] at h
  simp only [isAsciiAlnum, Bool.or_eq_true, Bool.and_eq_true, decide_eq_true_eq]
  omega

theorem char_eq_of_lower_key {a b : Char} (hl : a.toLower = b.toLower)
    (hk : emailKeyChar a = emailKeyChar b) : a = b := by
  by_cases ha : isAsciiAlnum a = true <;> by_cases hb : isAsciiAlnum b = true
  · unfold emailKeyChar at hk
    rw [if_pos ha, if_pos hb] at hk
    exact hk
  · unfold emailKeyChar at hk
    rw [if_pos ha, if_neg hb] at hk
    subst hk
    exact absurd ha (by decide)
  · unfold emailKeyChar at hk
    rw [if_neg ha, if_pos hb] at hk
    subst hk
    exact absurd hb (by decide)
  · have ga : a.toLower = a := toLower_eq_of_not_upper (by
      cases hu : isUpperAscii a
      · rfl
      · exact absurd (isUpperAscii_isAsciiAlnum hu) ha)
    have gb : b.toLower = b := toLower_eq_of_not_upper (by
      cases hu : isUpperAscii b
      · rfl
      · exact absurd (isUpperAscii_isAsciiAlnum hu) hb)
    rw [ga, gb] at hl
    exact hl

theorem eq_of_map_lower_key : ∀ (l1 l2 : List Char),
    l1.map Char.toLower = l2.map Char.toLower →
    l1.map emailKeyChar = l2.map emailKeyChar → l1 = l2
  | [], [], _, _ => rfl
  | [], _ :: _, hl, _ => by simp at hl
  | _ :: _, [], hl, _ => by simp at hl
  | a :: l1, b :: l2, hl, hk => by
    simp only [List.map_cons, List.cons.injEq] at hl hk
    rw [char_eq_of_lower_key hl.1 hk.1, eq_of_map_lower_key l1 l2 hl.2 hk.2]

theorem strExt {a b : String} (h : a.data = b.data) : a = b := by
  cases a
  cases b
  cases h
  rfl

theorem emailKey_ne_of_case_difference {e1 e2 : String} (hne : e1 ≠ e2)
    (hlow : lowerStr e1 = lowerStr e2) : emailKey e1 ≠ emailKey e2 := by
  intro hk
  apply hne
  apply strExt
  apply eq_of_map_lower_key
  · exact congrArg String.data hlow
  · exact congrArg String.data hk

/-- C9: the duplicate-email cache key preserves letter case while replacing
every character outside `[a-zA-Z0-9]` with `_`: two emails differing only in
letter case get distinct keys, so in one run neither file is flagged as a
duplicate of the other; conversely `'a.b@x.com'` and `'a_b@x.com'` share one
key and the file processed second is flagged as a duplicate. -/
theorem duplicate_key_normalization (c1 c2 : Json) (e1 e2 : String)
    (hne : e1 ≠ e2) (hlow : lowerStr e1 = lowerStr e2)
    (h1 : getField c1 "emailAddress" = some (.str e1)) (hne1 : e1 ≠ "")
    (h2 : getField c2 "emailAddress" = some (.str e2)) (hne2 : e2 ≠ "")
    (hw1 : brWellTyped c1 = true) (hw2 : brWellTyped c2 = true) :
    emailKey e1 ≠ emailKey e2 ∧
    (∃ vs1 vs2, (brRun [some c1, some c2] none).1 = [vs1, vs2] ∧
      (∀ e, ("Duplicate email address detected: " ++ e) ∉ vs1) ∧
      (∀ e, ("Duplicate email address detected: " ++ e) ∉ vs2)) ∧
    emailKey "a.b@x.com" = emailKey "a_b@x.com" ∧
    (brRun [some (.obj [("emailAddress", .str "a.b@x.com")]),
            some (.obj [("emailAddress", .str "a_b@x.com")])] none).1 =
      [[], ["Duplicate email address detected: a_b@x.com"]] := by
  have hkne := emailKey_ne_of_case_difference hne hlow
  refine ⟨hkne, ?_, by decide, by decide⟩
  have hs1 : brValidateFile (some c1) none = (brRules1to9 c1, some [emailKey e1]) := by
    rw [brValidateFile_wellTyped c1 none hw1, rule10_insert c1 e1 h1 hne1]
    simp
  have hmiss : [emailKey e1].contains (emailKey e2) = false := by
    simp only [List.contains_cons, List.elem_nil, Bool.or_false]
    exact beq_eq_false_iff_ne.mpr (Ne.symm hkne)
  have hs2 : brValidateFile (some c2) (some [emailKey e1]) =
      (brRules1to9 c2, some (emailKey e2 :: [emailKey e1])) := by
    rw [brValidateFile_wellTyped c2 _ hw2, rule10_miss c2 e2 _ h2 hne2 hmiss]
    simp
  refine ⟨brRules1to9 c1, brRules1to9 c2, by simp [brRun, hs1, hs2], ?_, ?_⟩
  · intro e hmem
    exact brRules1to9_head_ne_dup hmem (strHead_dupMsg e)
  · intro e hmem
    exact brRules1to9_head_ne_dup hmem (strHead_dupMsg e)

/-- Witness for C9 at a concrete case-differing email pair. -/
theorem duplicate_key_normalization_witness :
    ("A@x.com" : String) ≠ "a@x.com" ∧
    lowerStr "A@x.com" = lowerStr "a@x.com" ∧
    emailKey "A@x.com" ≠ emailKey "a@x.com" := by
  refine ⟨by decide, by decide, ?_⟩
  exact (duplicate_key_normalization
    (.obj [("emailAddress", .str "A@x.com")]) (.obj [("emailAddress", .str "a@x.com")])
    "A@x.com" "a@x.com" (by decide) (by decide) rfl (by decide) rfl (by decide)
    (by decide) (by decide)).1

end CdmData
